import Mathlib

/-!
# anaconda-webui: passphrase validation and language selection

A shallow embedding of
`src/components/storage/DiskEncryption.jsx` and
`src/components/localization/InstallationLanguage.jsx`.

Conventions of the embedding:

* text that comes from the user or the catalog is a `JSString`, the sequence
  of UTF-16 code units of a JavaScript string, so that `.length` and `===`
  are `List.length` and `=`;
* the string constants that the program uses as tags (`"weak"`,
  `"success"`, ...) are string literals;
* a JavaScript number is a `Score`: a rational for a finite number, and the
  values that compare `false` with everything;
* a function that can throw returns `Except JSError _`;
* React state is an explicit record and every setter call an explicit
  `Effect`.
-/

namespace AnacondaWebui

/-! ## JavaScript values -/

/-- A JavaScript string: its sequence of UTF-16 code units. -/
abbrev JSString := List Nat

/-- UTF-16 code units of one character. -/
def utf16Units (c : Char) : List Nat :=
  if c.toNat < 0x10000 then [c.toNat]
  else [0xD800 + (c.toNat - 0x10000) / 0x400, 0xDC00 + (c.toNat - 0x10000) % 0x400]

/-- The JavaScript string written by a literal. -/
def utf16 (s : String) : JSString :=
  (s.toList.map utf16Units).flatten

/-- A JavaScript number as far as `<=` and `>=` can tell: a finite number is a
rational (comparison of finite doubles is exact), the infinities, and `NaN`
(which is also what `undefined` converts to in a comparison). -/
inductive Score where
  | num (q : ℚ)
  | posInf
  | negInf
  | nan
  deriving DecidableEq

/-- JavaScript `bound <= value` for an integer literal `bound`. -/
def Score.geBound (value : Score) (bound : Int) : Bool :=
  match value with
  | .num q => decide ((bound : ℚ) ≤ q)
  | .posInf => true
  | .negInf => false
  | .nan => false

/-- JavaScript `bound >= value` for an integer literal `bound`. -/
def Score.leBound (value : Score) (bound : Int) : Bool :=
  match value with
  | .num q => decide (q ≤ (bound : ℚ))
  | .posInf => false
  | .negInf => true
  | .nan => false

/-- The exceptions the embedded code can raise. -/
inductive JSError where
  /-- A property read on `undefined`. -/
  | typeError
  deriving DecidableEq, Repr

/-! ## DiskEncryption.jsx -/

/-- An entry of `strengthLevels` (label, variant and icon are presentation). -/
structure StrengthLevel where
  id : String
  lower_bound : Int
  higher_bound : Int
  valid : Bool
  deriving DecidableEq, Repr

/-- The table `strengthLevels`. -/
def strengthLevels : List StrengthLevel :=
  [ { id := "weak", lower_bound := 0, higher_bound := 29, valid := true },
    { id := "medium", lower_bound := 30, higher_bound := 69, valid := true },
    { id := "strong", lower_bound := 70, higher_bound := 100, valid := true } ]

/-- The predicate of the filter in `getPasswordStrength`:
`l.lower_bound <= quality.value && l.higher_bound >= quality.value`. -/
def StrengthLevel.holds (l : StrengthLevel) (value : Score) : Bool :=
  value.geBound l.lower_bound && value.leBound l.higher_bound

/-- The body of `getPasswordStrength` after the oracle has resolved with
`quality.value = value`: the first level whose range holds the value, and a
`TypeError` from `level.id` when the filter result is empty. -/
def getPasswordStrength (value : Score) : Except JSError String :=
  match (strengthLevels.filter (fun l => l.holds value)).head? with
  | some level => .ok level.id
  | none => .error .typeError

/-- `isValidStrength`. -/
def isValidStrength (strength : String) : Bool :=
  match (strengthLevels.filter (fun l => l.id == strength)).head? with
  | some level => level.valid
  | none => false

/-- `getRuleLength`. -/
def getRuleLength (password : JSString) : String :=
  if password.length > 0 ∧ password.length ≤ 7 then "error"
  else if password.length > 7 then "success"
  else "indeterminate"

/-- `getRuleConfirmMatches`. -/
def getRuleConfirmMatches (password confirm : JSString) : String :=
  if password.length > 0 then (if password = confirm then "success" else "error")
  else "indeterminate"


/-- A call of a state setter made by `updateValidity`. -/
inductive Effect where
  | setPasswordStrength (passwordStrength : String)
  | setRuleLength (ruleLength : String)
  | setRuleConfirmMatches (ruleConfirmMatches : String)
  | setIsFormValid (isFormValid : Bool)
  deriving DecidableEq, Repr

/-- The continuation of `updateValidity(password, confirmPassword,
showPassphraseScreen)` once the awaited oracle call has resolved with
`quality.value = value`: the setter calls it makes, in order. When
`getPasswordStrength` throws, the promise of `updateValidity` rejects at its
first line and no setter has been called. -/
def updateValidity (password confirmPassword : JSString) (showPassphraseScreen : Bool)
    (value : Score) : Except JSError (List Effect) :=
  match getPasswordStrength value with
  | .error e => .error e
  | .ok passwordStrength =>
    let ruleLength := getRuleLength password
    let ruleConfirmMatches := getRuleConfirmMatches password confirmPassword
    let passphraseValid :=
      ruleLength == "success" &&
      ruleConfirmMatches == "success" &&
      isValidStrength passwordStrength
    .ok [ .setPasswordStrength passwordStrength,
          .setRuleLength ruleLength,
          .setRuleConfirmMatches ruleConfirmMatches,
          .setIsFormValid (!showPassphraseScreen || passphraseValid) ]

/-- A call of `updateValidity` whose oracle call has not resolved yet: the
arguments captured by its closure. `ticket` is a ghost field, the position of
the call in the order of issue. -/
structure UpdateCall where
  ticket : Nat
  password : JSString
  confirmPassword : JSString
  showPassphraseScreen : Bool
  deriving DecidableEq, Repr

/-- The state of a mounted `DiskEncryption` component: its five `useState`
cells, the prop `showPassphraseScreen`, the wizard's cell behind
`setIsFormValid`, and the `updateValidity` calls in flight. `issued` is a
ghost counter of the calls issued so far. -/
structure DiskEncryption where
  password : JSString
  confirmPassword : JSString
  passwordStrength : String
  ruleLength : String
  ruleConfirmMatches : String
  showPassphraseScreen : Bool
  isFormValid : Bool
  inFlight : List UpdateCall
  issued : Nat
  deriving DecidableEq, Repr

/-- The body of the first `useEffect`: call `updateValidity` with the current
`password`, `confirmPassword` and `showPassphraseScreen`; the call suspends at
its `await`. -/
def DiskEncryption.runEffect (c : DiskEncryption) : DiskEncryption :=
  { c with
    inFlight := c.inFlight ++
      [{ ticket := c.issued, password := c.password,
         confirmPassword := c.confirmPassword,
         showPassphraseScreen := c.showPassphraseScreen }]
    issued := c.issued + 1 }

/-- The component after its first render: `useState` initial values, then the
effect runs once. `isFormValid` is the wizard's value at that time. -/
def DiskEncryption.mount (password confirmPassword : JSString)
    (showPassphraseScreen isFormValid : Bool) : DiskEncryption :=
  DiskEncryption.runEffect
    { password := password
      confirmPassword := confirmPassword
      passwordStrength := ""
      ruleLength := "indeterminate"
      ruleConfirmMatches := "indeterminate"
      showPassphraseScreen := showPassphraseScreen
      isFormValid := isFormValid
      inFlight := []
      issued := 0 }

/-- One setter call applied to the state. -/
def DiskEncryption.apply (c : DiskEncryption) : Effect → DiskEncryption
  | .setPasswordStrength v => { c with passwordStrength := v }
  | .setRuleLength v => { c with ruleLength := v }
  | .setRuleConfirmMatches v => { c with ruleConfirmMatches := v }
  | .setIsFormValid v => { c with isFormValid := v }

/-- What can happen to a mounted component. -/
inductive Event where
  /-- `onChange` of the passphrase field: `setPassword(value)`. -/
  | setPassword (value : JSString)
  /-- `onConfirmChange`: `setConfirmPassword(value)`. -/
  | setConfirmPassword (value : JSString)
  /-- The wizard re-renders the component with a new `showPassphraseScreen`. -/
  | setShowPassphraseScreen (value : Bool)
  /-- The oracle call of the `updateValidity` call `ticket` resolves with
  `quality.value = value`. -/
  | resolve (ticket : Nat) (value : Score)

/-- One event. A setter called with the value the cell already holds does not
re-render, and the effect runs again only when one of its dependencies
`[setIsFormValid, showPassphraseScreen, password, confirmPassword]` changed.
A resolving call runs its continuation with the arguments of its own
closure. -/
def DiskEncryption.step (c : DiskEncryption) : Event → DiskEncryption
  | .setPassword value =>
    if value = c.password then c
    else DiskEncryption.runEffect { c with password := value }
  | .setConfirmPassword value =>
    if value = c.confirmPassword then c
    else DiskEncryption.runEffect { c with confirmPassword := value }
  | .setShowPassphraseScreen value =>
    if value = c.showPassphraseScreen then c
    else DiskEncryption.runEffect { c with showPassphraseScreen := value }
  | .resolve ticket value =>
    match c.inFlight.find? (fun call => call.ticket == ticket) with
    | none => c
    | some call =>
      let c1 := { c with inFlight := c.inFlight.filter (fun k => k.ticket != ticket) }
      match updateValidity call.password call.confirmPassword call.showPassphraseScreen value with
      | .error _ => c1
      | .ok effects => effects.foldl DiskEncryption.apply c1

/-- A sequence of events, in order. -/
def DiskEncryption.run (c : DiskEncryption) (events : List Event) : DiskEncryption :=
  events.foldl DiskEncryption.step c

/-- The call issued for the latest input is still waiting for the oracle. -/
def DiskEncryption.latestInFlight (c : DiskEncryption) : Bool :=
  c.inFlight.any (fun call => call.ticket + 1 == c.issued)

/-! ## InstallationLanguage.jsx -/

/-- A locale of the catalog, as read by `getLocaleId` and
`getLocaleNativeName`. -/
structure Locale where
  localeId : JSString
  nativeName : JSString
  deriving DecidableEq, Repr

/-- The `languageData` of a language, as read by `getLanguageEnglishName`,
`getLanguageId` and `getLanguageNativeName`. -/
structure LanguageData where
  englishName : JSString
  languageId : JSString
  nativeName : JSString
  deriving DecidableEq, Repr

/-- A value of the `languages` object. -/
structure LanguageItem where
  languageData : LanguageData
  locales : List Locale
  deriving DecidableEq, Repr

/-- The `languages` object: its own properties, key and value, in the order
in which `for ... in` and `Object.keys` enumerate them. The keys of an object
are distinct. -/
abbrev Languages := List (JSString × LanguageItem)

/-- The props of `LanguageSelector` that `renderOptions` reads. -/
structure Props where
  idPrefix : JSString
  language : JSString
  commonLocales : List JSString
  languages : Languages
  deriving DecidableEq, Repr

/-- Smallest index at which `t` occurs in `s`, if any. -/
def findIndexOf : JSString → JSString → Option Nat
  | [], t => if t.isPrefixOf [] then some 0 else none
  | a :: s, t =>
    if t.isPrefixOf (a :: s) then some 0
    else (findIndexOf s t).map (· + 1)

/-- JavaScript `s.indexOf(t)`. -/
def indexOf (s t : JSString) : Int :=
  match findIndexOf s t with
  | some i => (i : Int)
  | none => -1

/-- JavaScript `s.split(sep)[0]` for a non-empty `sep`. -/
def splitHead (s sep : JSString) : JSString :=
  match findIndexOf s sep with
  | some i => s.take i
  | none => s

/-- `cockpit.format("$0 ($1)", a, b)`. -/
def formatLabel (a b : JSString) : JSString :=
  a ++ utf16 " (" ++ b ++ utf16 ")"

/-- JavaScript `a <= b` on strings: code units compared lexicographically. -/
def codeUnitsLe : JSString → JSString → Bool
  | [], _ => true
  | _ :: _, [] => false
  | a :: as, b :: bs => decide (a < b) || (a == b && codeUnitsLe as bs)

/-- `Array.prototype.sort()` without a comparator on an array of strings:
ascending by code units. -/
def sortStrings (keys : List JSString) : List JSString :=
  keys.insertionSort (fun a b => codeUnitsLe a b = true)

/-- The two nested loops of `findLocaleWithId`: the first locale with the
given code, languages and locales in enumeration order. -/
def searchLocales (localeCode : JSString) : Languages → Option Locale
  | [] => none
  | (_, languageItem) :: rest =>
    match languageItem.locales.find? (fun locale => locale.localeId == localeCode) with
    | some locale => some locale
    | none => searchLocales localeCode rest

/-- The message of the `console.warn` in `findLocaleWithId`. -/
def notFoundWarning (localeCode : JSString) : JSString :=
  utf16 "Locale with code " ++ localeCode ++ utf16 " not found."

/-- `findLocaleWithId`: the locale found, or `undefined` (`none`) after a
warning; the second component is what the call wrote to the console. -/
def findLocaleWithId (languages : Languages) (localeCode : JSString) :
    Option Locale × List JSString :=
  match searchLocales localeCode languages with
  | some locale => (some locale, [])
  | none => (none, [notFoundWarning localeCode])

/-- A rendered `MenuItem` of a locale. `scrollRef` tells whether `ref` is the
scrolling callback or `undefined`; `style` is a function of `isSelected`. -/
structure MenuItem where
  id : JSString
  key : JSString
  isSelected : Bool
  itemId : JSString
  scrollRef : Bool
  children : JSString
  deriving DecidableEq, Repr

/-- An element of the array `renderOptions` returns. -/
inductive MenuOption where
  /-- The fragment `group-common-languages`: a `MenuGroup` and a `Divider`. -/
  | commonLanguages (id : JSString) (items : List MenuItem)
  /-- The `MenuGroup` of a language. -/
  | group (label id key : JSString) (items : List MenuItem)
  /-- The disabled `MenuItem` "No results found". -/
  | noResult (id : JSString)
  deriving DecidableEq, Repr

/-- `createMenuItem(locale, prefix)`; `foundSelected` is the variable of the
enclosing `renderOptions`, read and written by the call. -/
def createMenuItem (props : Props) (locale : Locale) (pfx : JSString)
    (foundSelected : Bool) : MenuItem × Bool :=
  let isSelected := decide (props.language = locale.localeId)
  let scrollRef := isSelected && !foundSelected
  let item : MenuItem :=
    { id := props.idPrefix ++ utf16 "-" ++ pfx ++ splitHead locale.localeId (utf16 ".UTF-8")
      key := pfx ++ locale.localeId
      isSelected := isSelected
      itemId := locale.localeId
      scrollRef := scrollRef
      children := locale.nativeName }
  (item, if isSelected then true else foundSelected)

/-- The pattern `locales.map(locale => createMenuItem(locale, prefix))`, with
`foundSelected` threaded through the calls. -/
def createMenuItems (props : Props) (pfx : JSString) :
    List Locale → Bool → List MenuItem × Bool
  | [], foundSelected => ([], foundSelected)
  | locale :: rest, foundSelected =>
    let r := createMenuItem props locale pfx foundSelected
    let rs := createMenuItems props pfx rest r.2
    (r.1 :: rs.1, rs.2)

/-- The mutable variables of one `renderOptions` call: the array `filtered`,
the flag `foundSelected`, and what has been written to the console. -/
structure RenderState where
  filtered : List MenuOption
  foundSelected : Bool
  console : List JSString
  deriving DecidableEq, Repr

/-- The block "List common languages." -/
def listCommon (props : Props) (st : RenderState) : RenderState :=
  let looked := props.commonLocales.map (findLocaleWithId props.languages)
  let locales := looked.filterMap (fun r => r.1)
  let items := createMenuItems props (utf16 "option-common-") locales st.foundSelected
  { filtered := st.filtered ++
      [.commonLanguages (props.idPrefix ++ utf16 "-common-languages") items.1]
    foundSelected := items.2
    console := st.console ++ (looked.map (fun r => r.2)).flatten }

/-- One iteration of the loop "List alphabetically." -/
def listLanguage (toLowerCase : JSString → JSString) (props : Props)
    (filter filterLow : JSString) (st : RenderState) (languageId : JSString) : RenderState :=
  match props.languages.lookup languageId with
  | none => st
  | some languageItem =>
    let label := formatLabel languageItem.languageData.nativeName
      languageItem.languageData.englishName
    if filter = [] ∨ indexOf (toLowerCase label) filterLow ≠ -1 then
      let items := createMenuItems props (utf16 "option-alpha-") languageItem.locales
        st.foundSelected
      { st with
        filtered := st.filtered ++
          [.group label (props.idPrefix ++ utf16 "-group-" ++ languageItem.languageData.languageId)
            (utf16 "group-" ++ languageItem.languageData.languageId) items.1]
        foundSelected := items.2 }
    else st

/-- `renderOptions(filter)` of a `LanguageSelector` whose `state.search` is
`search`; `toLowerCase` is `String.prototype.toLowerCase`. The result is the
returned array and what the call wrote to the console. -/
def renderOptions (toLowerCase : JSString → JSString) (props : Props)
    (search filter : JSString) : List MenuOption × List JSString :=
  let filterLow := toLowerCase filter
  let st0 : RenderState := { filtered := [], foundSelected := false, console := [] }
  let st1 := if filter = [] then listCommon props st0 else st0
  let languagesIds := sortStrings (props.languages.map Prod.fst)
  let st2 := languagesIds.foldl (listLanguage toLowerCase props filter filterLow) st1
  if search ≠ [] ∧ st2.filtered.length = 0 then
    ([.noResult (props.idPrefix ++ utf16 "search-no-result")], st2.console)
  else (st2.filtered, st2.console)

/-! ### Mounting and selecting a language -/

/-- What `componentDidMount` and `handleOnSelect`, with their continuations,
do to the world outside the component, in the order in which it happens. An
exception is the text it carries. -/
inductive UiEffect where
  /-- `setLangCookie({ cockpitLang })`. -/
  | setLangCookie (cockpitLang : JSString)
  /-- `window.location.reload(true)`. -/
  | reload
  /-- The backend call `setLanguage({ lang })` is issued. -/
  | setLanguage (lang : JSString)
  /-- The backend call `setLocale({ locale })` is issued. -/
  | setLocale (locale : JSString)
  /-- `console.info({ ex })`. -/
  | consoleInfo (ex : JSString)
  /-- `this.props.setStepNotification(ex)`. -/
  | setStepNotification (ex : JSString)
  /-- `this.setState({ lang })`. -/
  | setState (lang : JSString)
  /-- `this.props.setNativeName(nativeName)`, from `updateNativeName`. -/
  | setNativeName (nativeName : JSString)
  /-- `fetch("po.js")` is issued. -/
  | fetchPo
  /-- `cockpit.locale(null)`. -/
  | cockpitLocaleNull
  /-- `eval(body)` is called: the fetched bundle is run as a script. -/
  | evalBody (body : JSString)
  /-- `window.dispatchEvent(new CustomEvent("cockpit-lang"))`. -/
  | dispatchCockpitLang
  /-- `this.props.reRenderApp(item)`. -/
  | reRenderApp (item : JSString)
  deriving DecidableEq, Repr

/-- `componentDidMount` for the prop `language`, when `getLangCookie()` returns
`langCookie` (`none` is `null`). `convertToCockpitLang` is the helper of
`helpers/language.js`; the helpers are taken to return normally, so the
`catch` branch is not entered. `reload` starts a navigation and returns, and
the statement after the `if` still runs. -/
def componentDidMount (convertToCockpitLang : JSString → JSString) (language : JSString)
    (langCookie : Option JSString) : List UiEffect :=
  let cockpitLang := convertToCockpitLang language
  (if langCookie ≠ some cockpitLang then [.setLangCookie cockpitLang, .reload] else []) ++
    [.setLocale language]

/-- JavaScript white space and line terminators, the code units `trim`
removes. -/
def isTrimmed (u : Nat) : Bool :=
  u = 0x09 || u = 0x0A || u = 0x0B || u = 0x0C || u = 0x0D || u = 0x20 || u = 0xA0 ||
  u = 0x1680 || (0x2000 ≤ u && u ≤ 0x200A) || u = 0x2028 || u = 0x2029 || u = 0x202F ||
  u = 0x205F || u = 0x3000 || u = 0xFEFF

/-- JavaScript `body.trim() === ""`. -/
def trimIsEmpty (body : JSString) : Bool :=
  body.all isTrimmed

/-- A call of `handleOnSelect` and what is still to come of it: the effects so
far, and the three asynchronous operations its two promise chains wait for.
`setLanguagePending` holds the locale id captured by the `.then` closure,
`fetchPending` the `item` captured by the closure of the bundle chain. -/
structure Selection where
  trace : List UiEffect
  setLanguagePending : Option JSString
  setLocalePending : Bool
  fetchPending : Option JSString
  deriving DecidableEq, Repr

/-- The synchronous part of `handleOnSelect(_event, item)`: the two nested
loops stop at the first locale whose id is `item` (they are the loops of
`findLocaleWithId`), then come the marker write, the start of the backend
chain, `setState`, `updateNativeName` (an `async` function without `await`,
so its body runs at once) and the start of the bundle chain. Nothing happens
when no locale has the id. -/
def handleOnSelect (convertToCockpitLang : JSString → JSString) (languages : Languages)
    (item : JSString) : Selection :=
  match searchLocales item languages with
  | none =>
    { trace := [], setLanguagePending := none, setLocalePending := false, fetchPending := none }
  | some localeItem =>
    { trace :=
        [ .setLangCookie (convertToCockpitLang localeItem.localeId),
          .setLanguage localeItem.localeId,
          .setState item,
          .setNativeName localeItem.nativeName,
          .fetchPo ]
      setLanguagePending := some localeItem.localeId
      setLocalePending := false
      fetchPending := some item }

/-- The asynchronous operations of a selection settle. -/
inductive SelectEvent where
  /-- The promise of `setLanguage` resolves (`none`) or rejects with `ex`. -/
  | setLanguageSettled (rejection : Option JSString)
  /-- The promise of `setLocale` resolves (`none`) or rejects with `ex`. -/
  | setLocaleSettled (rejection : Option JSString)
  /-- `fetch("po.js")` and `response.text()` have resolved with `body`.
  `evalThrows` tells whether `eval(body)` throws, which is up to the script; it
  is not looked at for a bundle that `trim` empties, since `eval` is not
  called then. -/
  | bundleLoaded (body : JSString) (evalThrows : Bool)
  /-- `fetch("po.js")` or `response.text()` rejects; the chain has no `catch`. -/
  | bundleFailed
  deriving DecidableEq, Repr

/-- The body of the last `.then` of the bundle chain: reset the old
translation, then either reset again (empty bundle) or `eval` the bundle and
dispatch "cockpit-lang", then `reRenderApp`. An exception of `eval` leaves the
callback at once: the chain has no `catch`, and neither the event nor
`reRenderApp` follows. -/
def swapTranslation (item body : JSString) (evalThrows : Bool) : List UiEffect :=
  if trimIsEmpty body then
    [.cockpitLocaleNull, .cockpitLocaleNull, .reRenderApp item]
  else if evalThrows then
    [.cockpitLocaleNull, .evalBody body]
  else
    [.cockpitLocaleNull, .evalBody body, .dispatchCockpitLang, .reRenderApp item]

/-- One settlement. The chain
`setLanguage(..).then(() => setLocale(..)).catch(ex => ..)` calls `setLocale`
when `setLanguage` resolves and runs the `catch` handler when either promise
rejects; the chain `fetch("po.js").then(..).then(body => ..)` runs on its
own. -/
def Selection.step (s : Selection) : SelectEvent → Selection
  | .setLanguageSettled rejection =>
    match s.setLanguagePending with
    | none => s
    | some localeId =>
      match rejection with
      | none =>
        { s with
          trace := s.trace ++ [.setLocale localeId]
          setLanguagePending := none
          setLocalePending := true }
      | some ex =>
        { s with
          trace := s.trace ++ [.consoleInfo ex, .setStepNotification ex]
          setLanguagePending := none }
  | .setLocaleSettled rejection =>
    if s.setLocalePending then
      match rejection with
      | none => { s with setLocalePending := false }
      | some ex =>
        { s with
          trace := s.trace ++ [.consoleInfo ex, .setStepNotification ex]
          setLocalePending := false }
    else s
  | .bundleLoaded body evalThrows =>
    match s.fetchPending with
    | none => s
    | some item =>
      { s with
        trace := s.trace ++ swapTranslation item body evalThrows
        fetchPending := none }
  | .bundleFailed => { s with fetchPending := none }

/-- A sequence of settlements, in order. -/
def Selection.run (s : Selection) (events : List SelectEvent) : Selection :=
  events.foldl Selection.step s

/-! ## Vocabulary of the statements -/

/-- The level id that `strengthLevels` gives an integer score in `0..100`. -/
def levelOf (s : ℤ) : String :=
  if s ≤ 29 then "weak" else if s ≤ 69 then "medium" else "strong"

/-- The event is the resolution of an oracle call. -/
def Event.isResolve : Event → Bool
  | .resolve _ _ => true
  | _ => false

/-- Scenario C: the component is mounted with empty fields and the gate
active, the user types "a" (call #1) and then "ab" (call #2). -/
def typedAThenAb : DiskEncryption :=
  DiskEncryption.run (DiskEncryption.mount [] [] true false)
    [.resolve 0 (.num 0), .setPassword (utf16 "a"), .setPassword (utf16 "ab")]

/-- The confirmation is "longenoughpass"; the user types the same passphrase
(call #1) and then one more character (call #2). -/
def typedMatchThenMismatch : DiskEncryption :=
  DiskEncryption.run (DiskEncryption.mount [] (utf16 "longenoughpass") true false)
    [.resolve 0 (.num 0), .setPassword (utf16 "longenoughpass"),
      .setPassword (utf16 "longenoughpassX")]

/-- The passphrase "longenoughpass" has been typed twice and accepted with
score 80; then the confirmation is edited to "x" (call #2, in flight). -/
def acceptedThenEdited : DiskEncryption :=
  DiskEncryption.run
    (DiskEncryption.mount (utf16 "longenoughpass") (utf16 "longenoughpass") true false)
    [.resolve 0 (.num 80), .setConfirmPassword (utf16 "x")]

/-- The locale a rendered item stands for. -/
def MenuItem.locale (item : MenuItem) : Locale :=
  { localeId := item.itemId, nativeName := item.children }

/-- What an element of the returned array shows: for a group its label and
the locales of its items, in order. -/
inductive Shown where
  | commonLanguages (locales : List Locale)
  | group (label : JSString) (locales : List Locale)
  | noResult
  deriving DecidableEq, Repr

/-- What a rendered option shows. -/
def MenuOption.shown : MenuOption → Shown
  | .commonLanguages _ items => .commonLanguages (items.map MenuItem.locale)
  | .group label _ _ items => .group label (items.map MenuItem.locale)
  | .noResult _ => .noResult

/-- The label "{nativeName} ({englishName})" of a language, written out: the
native name, a space (0x20), an opening parenthesis (0x28), the English name
and a closing parenthesis (0x29). -/
def labelText (languageData : LanguageData) : JSString :=
  languageData.nativeName ++ [0x20, 0x28] ++ languageData.englishName ++ [0x29]

/-- The label of a language contains the filter, case-insensitively. -/
def labelContains (toLowerCase : JSString → JSString) (filter : JSString)
    (languageItem : LanguageItem) : Prop :=
  toLowerCase filter <:+: toLowerCase (labelText languageItem.languageData)

instance (toLowerCase : JSString → JSString) (filter : JSString)
    (languageItem : LanguageItem) : Decidable (labelContains toLowerCase filter languageItem) := by
  unfold labelContains
  infer_instance

/-- The entries of the catalog in the order of their sorted keys. -/
def sortedEntries (languages : Languages) : List (JSString × LanguageItem) :=
  (sortStrings (languages.map Prod.fst)).filterMap
    (fun k => (languages.lookup k).map (fun languageItem => (k, languageItem)))

/-- What the group of a language shows. -/
def groupShown (languageItem : LanguageItem) : Shown :=
  .group (labelText languageItem.languageData) languageItem.locales

/-- What the loop of `renderOptions` adds for the key `k`, as shown. -/
def groupFor (toLowerCase : JSString → JSString) (languages : Languages)
    (filter : JSString) (k : JSString) : Option Shown :=
  match languages.lookup k with
  | none => none
  | some languageItem =>
    if filter = [] ∨ labelContains toLowerCase filter languageItem then
      some (groupShown languageItem)
    else none

/-- A lower-casing of the ASCII letters, for concrete evaluations. -/
def asciiLower (s : JSString) : JSString :=
  s.map (fun u => if 65 ≤ u ∧ u ≤ 90 then u + 32 else u)

/-- A small catalog: Czech, German and English (two locales), enumerated in
that order. -/
def sampleLanguages : Languages :=
  [ (utf16 "cs", { languageData := { englishName := utf16 "Czech", languageId := utf16 "cs",
                                     nativeName := utf16 "Čeština" },
                   locales := [{ localeId := utf16 "cs_CZ.UTF-8",
                                 nativeName := utf16 "Čeština (Česko)" }] }),
    (utf16 "en", { languageData := { englishName := utf16 "English", languageId := utf16 "en",
                                     nativeName := utf16 "English" },
                   locales := [{ localeId := utf16 "en_US.UTF-8",
                                 nativeName := utf16 "English (United States)" },
                               { localeId := utf16 "en_GB.UTF-8",
                                 nativeName := utf16 "English (United Kingdom)" }] }),
    (utf16 "de", { languageData := { englishName := utf16 "German", languageId := utf16 "de",
                                     nativeName := utf16 "Deutsch" },
                   locales := [{ localeId := utf16 "de_DE.UTF-8",
                                 nativeName := utf16 "Deutsch (Deutschland)" }] }) ]

/-- Props over the small catalog, with one common locale that the catalog
does not have. -/
def sampleProps : Props :=
  { idPrefix := utf16 "installation-language"
    language := utf16 "en_US.UTF-8"
    commonLocales := [utf16 "en_US.UTF-8", utf16 "fr_FR.UTF-8", utf16 "de_DE.UTF-8"]
    languages := sampleLanguages }

/-- The items of a rendered option. -/
def MenuOption.items : MenuOption → List MenuItem
  | .commonLanguages _ items => items
  | .group _ _ _ items => items
  | .noResult _ => []

/-- The locales an option shows. -/
def Shown.locales : Shown → List Locale
  | .commonLanguages locales => locales
  | .group _ locales => locales
  | .noResult => []

/-- Each locale identifier appears under exactly one language: two locales
with the same identifier belong to the same entry of the catalog. -/
def underOneLanguage (languages : Languages) : Prop :=
  ∀ e1 ∈ languages, ∀ e2 ∈ languages, ∀ l1 ∈ e1.2.locales, ∀ l2 ∈ e2.2.locales,
    l1.localeId = l2.localeId → e1 = e2

instance (languages : Languages) : Decidable (underOneLanguage languages) := by
  unfold underOneLanguage
  infer_instance

/-- No language lists a locale identifier twice. -/
def onceInItsList (languages : Languages) : Prop :=
  ∀ e ∈ languages, (e.2.locales.map Locale.localeId).Nodup

instance (languages : Languages) : Decidable (onceInItsList languages) := by
  unfold onceInItsList
  infer_instance

/-- A catalog with one language whose list holds the identifier "en_US.UTF-8"
twice, with different native names. -/
def repeatedIdProps : Props :=
  { idPrefix := utf16 "installation-language"
    language := utf16 ""
    commonLocales := []
    languages :=
      [ (utf16 "en",
          { languageData := { englishName := utf16 "English", languageId := utf16 "en",
                              nativeName := utf16 "English" },
            locales := [{ localeId := utf16 "en_US.UTF-8", nativeName := utf16 "A" },
                        { localeId := utf16 "en_US.UTF-8", nativeName := utf16 "B" }] }) ] }

/-- The event is a settlement of the bundle chain. -/
def SelectEvent.isBundle : SelectEvent → Bool
  | .bundleLoaded _ _ => true
  | .bundleFailed => true
  | _ => false

/-- A stand-in for `convertToCockpitLang` in concrete evaluations: the locale
id without its ".UTF-8" suffix. -/
def sampleCockpitLang (lang : JSString) : JSString :=
  splitHead lang (utf16 ".UTF-8")

/-! ## Theorems -/

/-! ### Strength levels -/

theorem holds_num_int (l : StrengthLevel) (s : ℤ) :
    l.holds (.num s) = decide (l.lower_bound ≤ s ∧ s ≤ l.higher_bound) := by
  simp [StrengthLevel.holds, Score.geBound, Score.leBound, Bool.decide_and]

theorem filter_holds_int (s : ℤ) (h0 : 0 ≤ s) (h1 : s ≤ 100) :
    strengthLevels.filter (fun l => l.holds (.num s)) =
      if s ≤ 29 then [{ id := "weak", lower_bound := 0, higher_bound := 29, valid := true }]
      else if s ≤ 69 then [{ id := "medium", lower_bound := 30, higher_bound := 69, valid := true }]
      else [{ id := "strong", lower_bound := 70, higher_bound := 100, valid := true }] := by
  simp only [holds_num_int, strengthLevels, List.filter]
  by_cases a : s ≤ 29
  · have b : ¬ (30 ≤ s) := by omega
    have c : ¬ (70 ≤ s) := by omega
    simp [a, b, c, h0]
  · by_cases a2 : s ≤ 69
    · have b : (30 ≤ s) := by omega
      have c : ¬ (70 ≤ s) := by omega
      simp [a, a2, b, c]
    · have b : (30 ≤ s) := by omega
      have c : (70 ≤ s) := by omega
      simp [a, a2, b, c, h1]

theorem getPasswordStrength_int (s : ℤ) (h0 : 0 ≤ s) (h1 : s ≤ 100) :
    getPasswordStrength (.num s) = .ok (levelOf s) := by
  unfold getPasswordStrength levelOf
  rw [filter_holds_int s h0 h1]
  split_ifs <;> rfl

theorem isValidStrength_levelOf (s : ℤ) : isValidStrength (levelOf s) = true := by
  unfold levelOf
  split_ifs <;> decide

theorem getRuleLength_cases (password : JSString) :
    (password.length = 0 ∧ getRuleLength password = "indeterminate") ∨
    (1 ≤ password.length ∧ password.length ≤ 7 ∧ getRuleLength password = "error") ∨
    (8 ≤ password.length ∧ getRuleLength password = "success") := by
  unfold getRuleLength
  split_ifs with h1 h2
  · exact Or.inr (Or.inl ⟨by omega, by omega, rfl⟩)
  · exact Or.inr (Or.inr ⟨by omega, rfl⟩)
  · exact Or.inl ⟨by omega, rfl⟩

theorem getRuleLength_success (password : JSString) :
    getRuleLength password = "success" ↔ 8 ≤ password.length := by
  rcases getRuleLength_cases password with ⟨hl, hr⟩ | ⟨hl, hu, hr⟩ | ⟨hl, hr⟩
  · exact iff_of_false (by rw [hr]; decide) (by omega)
  · exact iff_of_false (by rw [hr]; decide) (by omega)
  · exact iff_of_true hr hl

theorem getRuleConfirmMatches_success (password confirm : JSString)
    (h : 0 < password.length) :
    getRuleConfirmMatches password confirm = "success" ↔ password = confirm := by
  unfold getRuleConfirmMatches
  simp only [gt_iff_lt, h, if_true]
  split_ifs with h1 <;> simp [h1]

/-- The validity `updateValidity` publishes, as a function of the inputs. -/
theorem passphraseValid_eq (password confirmPassword : JSString) (s : ℤ) :
    (getRuleLength password == "success" &&
      getRuleConfirmMatches password confirmPassword == "success" &&
      isValidStrength (levelOf s)) =
    (decide (8 ≤ password.length) && decide (password = confirmPassword)) := by
  rw [isValidStrength_levelOf, Bool.and_true]
  by_cases h : 8 ≤ password.length
  · have h0 : 0 < password.length := by omega
    have a := (getRuleLength_success password).2 h
    by_cases e : password = confirmPassword
    · have b := (getRuleConfirmMatches_success password confirmPassword h0).2 e
      rw [a, b, decide_eq_true h, decide_eq_true e]
      rfl
    · have b : getRuleConfirmMatches password confirmPassword ≠ "success" :=
        fun hb => e ((getRuleConfirmMatches_success password confirmPassword h0).1 hb)
      simp [a, b, h, e]
  · have a : getRuleLength password ≠ "success" :=
      fun ha => h ((getRuleLength_success password).1 ha)
    simp [a, h]

theorem updateValidity_int (password confirmPassword : JSString) (showPassphraseScreen : Bool)
    (s : ℤ) (h0 : 0 ≤ s) (h1 : s ≤ 100) :
    updateValidity password confirmPassword showPassphraseScreen (.num s) =
      .ok [ .setPasswordStrength (levelOf s),
            .setRuleLength (getRuleLength password),
            .setRuleConfirmMatches (getRuleConfirmMatches password confirmPassword),
            .setIsFormValid (!showPassphraseScreen ||
              (decide (8 ≤ password.length) && decide (password = confirmPassword))) ] := by
  unfold updateValidity
  rw [getPasswordStrength_int s h0 h1]
  simp only [passphraseValid_eq]

/-- C1: for every integer score `0 <= s <= 100` exactly one entry of
`strengthLevels` has `lower_bound <= s <= higher_bound`, and
`getPasswordStrength` returns `weak` for `0..29`, `medium` for `30..69` and
`strong` for `70..100`. -/
theorem C1_levels_tile_scores (s : ℤ) (h0 : 0 ≤ s) (h1 : s ≤ 100) :
    (∃! l, l ∈ strengthLevels ∧ l.lower_bound ≤ s ∧ s ≤ l.higher_bound) ∧
    (strengthLevels.filter (fun l => l.holds (.num s))).length = 1 ∧
    getPasswordStrength (.num s) =
      .ok (if s ≤ 29 then "weak" else if s ≤ 69 then "medium" else "strong") := by
  refine ⟨?_, ?_, getPasswordStrength_int s h0 h1⟩
  · by_cases a : s ≤ 29
    · refine ⟨{ id := "weak", lower_bound := 0, higher_bound := 29, valid := true }, ?_, ?_⟩
      · simp [strengthLevels, h0, a]
      · rintro l ⟨hl, hlo, hhi⟩
        simp only [strengthLevels, List.mem_cons, List.mem_singleton, List.mem_nil_iff,
          or_false] at hl
        rcases hl with rfl | rfl | rfl
        · rfl
        · simp at hlo; omega
        · simp at hlo; omega
    · by_cases b : s ≤ 69
      · refine ⟨{ id := "medium", lower_bound := 30, higher_bound := 69, valid := true }, ?_, ?_⟩
        · simp [strengthLevels, b]; omega
        · rintro l ⟨hl, hlo, hhi⟩
          simp only [strengthLevels, List.mem_cons, List.mem_singleton, List.mem_nil_iff,
            or_false] at hl
          rcases hl with rfl | rfl | rfl
          · simp at hhi; omega
          · rfl
          · simp at hlo; omega
      · refine ⟨{ id := "strong", lower_bound := 70, higher_bound := 100, valid := true }, ?_, ?_⟩
        · simp [strengthLevels, h1]; omega
        · rintro l ⟨hl, hlo, hhi⟩
          simp only [strengthLevels, List.mem_cons, List.mem_singleton, List.mem_nil_iff,
            or_false] at hl
          rcases hl with rfl | rfl | rfl
          · simp at hhi; omega
          · simp at hhi; omega
          · rfl
  · rw [filter_holds_int s h0 h1]
    split_ifs <;> rfl

/-- Witness of C1 at the boundary score 29. -/
theorem C1_levels_tile_scores_witness :
    (0 : ℤ) ≤ 29 ∧ (29 : ℤ) ≤ 100 ∧
    ((∃! l, l ∈ strengthLevels ∧ l.lower_bound ≤ (29 : ℤ) ∧ (29 : ℤ) ≤ l.higher_bound) ∧
    (strengthLevels.filter (fun l => l.holds (.num ((29 : ℤ) : ℚ)))).length = 1 ∧
    getPasswordStrength (.num ((29 : ℤ) : ℚ)) =
      .ok (if (29 : ℤ) ≤ 29 then "weak" else if (29 : ℤ) ≤ 69 then "medium" else "strong")) :=
  ⟨by decide, by decide, C1_levels_tile_scores 29 (by decide) (by decide)⟩


/-! ### The validity `updateValidity` publishes -/

/-- C2: for every password, confirmation and `showPassphraseScreen`, and
every integer oracle score in `0..100`, `updateValidity` passes to
`setIsFormValid` the value `!showPassphraseScreen || (getRuleLength(password)
== success && getRuleConfirmMatches(password, confirm) == success &&
isValidStrength(strength))`, which is `true` when the gate is inactive and
otherwise `true` exactly when the password has at least 8 code units and
equals the confirmation; "longenoughpass" twice with score 80 gives strength
`strong` and validity `true`. -/
theorem C2_published_validity (password confirmPassword : JSString)
    (showPassphraseScreen : Bool) (s : ℤ) (h0 : 0 ≤ s) (h1 : s ≤ 100) :
    (∃ strength,
      getPasswordStrength (.num s) = .ok strength ∧
      updateValidity password confirmPassword showPassphraseScreen (.num s) =
        .ok [ .setPasswordStrength strength,
              .setRuleLength (getRuleLength password),
              .setRuleConfirmMatches (getRuleConfirmMatches password confirmPassword),
              .setIsFormValid (!showPassphraseScreen ||
                (getRuleLength password == "success" &&
                  getRuleConfirmMatches password confirmPassword == "success" &&
                  isValidStrength strength)) ] ∧
      isValidStrength strength = true ∧
      (!showPassphraseScreen ||
          (getRuleLength password == "success" &&
            getRuleConfirmMatches password confirmPassword == "success" &&
            isValidStrength strength)) =
        (!showPassphraseScreen ||
          (decide (8 ≤ password.length) && decide (password = confirmPassword)))) ∧
    updateValidity (utf16 "longenoughpass") (utf16 "longenoughpass") true (.num 80) =
      .ok [ .setPasswordStrength "strong", .setRuleLength "success",
            .setRuleConfirmMatches "success", .setIsFormValid true ] := by
  refine ⟨⟨levelOf s, getPasswordStrength_int s h0 h1, ?_, isValidStrength_levelOf s, ?_⟩, ?_⟩
  · rw [updateValidity_int _ _ _ s h0 h1, passphraseValid_eq]
  · rw [passphraseValid_eq]
  · have h := updateValidity_int (utf16 "longenoughpass") (utf16 "longenoughpass") true 80
      (by decide) (by decide)
    rw [show ((80 : ℤ) : ℚ) = 80 by norm_num] at h
    rw [h]
    exact congrArg Except.ok (by decide)


/-- Witness of C2: scenario B, "longenoughpass" twice with score 80. -/
theorem C2_published_validity_witness :
    (0 : ℤ) ≤ 80 ∧ (80 : ℤ) ≤ 100 ∧
    updateValidity (utf16 "longenoughpass") (utf16 "longenoughpass") true (.num 80) =
      .ok [ .setPasswordStrength "strong", .setRuleLength "success",
            .setRuleConfirmMatches "success", .setIsFormValid true ] :=
  ⟨by decide, by decide,
    (C2_published_validity (utf16 "longenoughpass") (utf16 "longenoughpass") true 80
      (by decide) (by decide)).2⟩

/-! ### The rules -/

/-- C6: `getRuleLength` is total and returns `indeterminate` iff the length
is 0, `error` iff the length is between 1 and 7, and `success` iff the length
is at least 8. -/
theorem C6_getRuleLength (password : JSString) :
    (getRuleLength password = "indeterminate" ↔ password.length = 0) ∧
    (getRuleLength password = "error" ↔ 1 ≤ password.length ∧ password.length ≤ 7) ∧
    (getRuleLength password = "success" ↔ 8 ≤ password.length) ∧
    getRuleLength (utf16 "") = "indeterminate" ∧
    getRuleLength (utf16 "1234567") = "error" ∧
    getRuleLength (utf16 "12345678") = "success" := by
  refine ⟨?_, ?_, getRuleLength_success password, by decide, by decide, by decide⟩
  · rcases getRuleLength_cases password with ⟨hl, hr⟩ | ⟨hl, hu, hr⟩ | ⟨hl, hr⟩
    · exact iff_of_true hr hl
    · exact iff_of_false (by rw [hr]; decide) (by omega)
    · exact iff_of_false (by rw [hr]; decide) (by omega)
  · rcases getRuleLength_cases password with ⟨hl, hr⟩ | ⟨hl, hu, hr⟩ | ⟨hl, hr⟩
    · exact iff_of_false (by rw [hr]; decide) (by omega)
    · exact iff_of_true hr ⟨hl, hu⟩
    · exact iff_of_false (by rw [hr]; decide) (by omega)

/-- C7: `getRuleConfirmMatches` is total and returns `indeterminate` when the
password is empty, whatever the confirmation, and otherwise `success` iff
the password equals the confirmation and `error` iff it does not. -/
theorem C7_getRuleConfirmMatches (password confirm : JSString) :
    (password = [] → getRuleConfirmMatches password confirm = "indeterminate") ∧
    (password ≠ [] →
      (getRuleConfirmMatches password confirm = "success" ↔ password = confirm) ∧
      (getRuleConfirmMatches password confirm = "error" ↔ password ≠ confirm)) ∧
    getRuleConfirmMatches (utf16 "") (utf16 "") = "indeterminate" ∧
    getRuleConfirmMatches (utf16 "abc") (utf16 "abc") = "success" ∧
    getRuleConfirmMatches (utf16 "abc") (utf16 "abd") = "error" := by
  refine ⟨?_, ?_, by decide, by decide, by decide⟩
  · rintro rfl
    rfl
  · intro h
    have h0 : 0 < password.length := List.length_pos.2 h
    refine ⟨getRuleConfirmMatches_success password confirm h0, ?_⟩
    unfold getRuleConfirmMatches
    simp only [gt_iff_lt, h0, if_true]
    split_ifs with h1 <;> simp [h1]


/-! ### The controller -/

theorem step_resolve_classified (c : DiskEncryption) (ticket : Nat) (call : UpdateCall) (s : ℤ)
    (hc : c.inFlight.find? (fun k => k.ticket == ticket) = some call)
    (h0 : 0 ≤ s) (h1 : s ≤ 100) :
    c.step (.resolve ticket (.num s)) =
      { c with
        inFlight := c.inFlight.filter (fun k => k.ticket != ticket)
        passwordStrength := levelOf s
        ruleLength := getRuleLength call.password
        ruleConfirmMatches := getRuleConfirmMatches call.password call.confirmPassword
        isFormValid := !call.showPassphraseScreen ||
          (decide (8 ≤ call.password.length) && decide (call.password = call.confirmPassword)) } := by
  simp only [DiskEncryption.step, hc, updateValidity_int _ _ _ s h0 h1, List.foldl,
    DiskEncryption.apply]

theorem step_not_resolve (c : DiskEncryption) (e : Event) (h : e.isResolve = false) :
    (c.step e).isFormValid = c.isFormValid ∧
    (c.step e).passwordStrength = c.passwordStrength ∧
    (c.step e).ruleLength = c.ruleLength ∧
    (c.step e).ruleConfirmMatches = c.ruleConfirmMatches := by
  cases e with
  | resolve t v => simp [Event.isResolve] at h
  | setPassword v =>
    simp only [DiskEncryption.step]
    split_ifs <;> simp [DiskEncryption.runEffect]
  | setConfirmPassword v =>
    simp only [DiskEncryption.step]
    split_ifs <;> simp [DiskEncryption.runEffect]
  | setShowPassphraseScreen v =>
    simp only [DiskEncryption.step]
    split_ifs <;> simp [DiskEncryption.runEffect]

theorem run_not_resolve (events : List Event) :
    ∀ c : DiskEncryption, (∀ e ∈ events, e.isResolve = false) →
    (c.run events).isFormValid = c.isFormValid ∧
    (c.run events).passwordStrength = c.passwordStrength ∧
    (c.run events).ruleLength = c.ruleLength ∧
    (c.run events).ruleConfirmMatches = c.ruleConfirmMatches := by
  induction events with
  | nil => intro c _; exact ⟨rfl, rfl, rfl, rfl⟩
  | cons e es ih =>
    intro c h
    have he := step_not_resolve c e (h e (List.mem_cons_self e es))
    have hr := ih (c.step e) (fun x hx => h x (List.mem_cons_of_mem e hx))
    simp only [DiskEncryption.run, List.foldl] at hr ⊢
    exact ⟨hr.1.trans he.1, hr.2.1.trans he.2.1, hr.2.2.1.trans he.2.2.1,
      hr.2.2.2.trans he.2.2.2⟩

/-- C3 as amended (last resolution wins): a call in flight that resolves with
an integer score in `0..100` overwrites the stored `passwordStrength`,
`ruleLength`, `ruleConfirmMatches` and the published validity with the values
computed from the input it was issued for, whatever the current input is; the
stored values are those of the current input when the resolving call was
issued for it. -/
theorem C3_last_resolution_wins (c : DiskEncryption) (ticket : Nat) (call : UpdateCall) (s : ℤ)
    (hc : c.inFlight.find? (fun k => k.ticket == ticket) = some call)
    (h0 : 0 ≤ s) (h1 : s ≤ 100) :
    (c.step (.resolve ticket (.num s))).password = c.password ∧
    (c.step (.resolve ticket (.num s))).confirmPassword = c.confirmPassword ∧
    getPasswordStrength (.num s) = .ok (c.step (.resolve ticket (.num s))).passwordStrength ∧
    (c.step (.resolve ticket (.num s))).ruleLength = getRuleLength call.password ∧
    (c.step (.resolve ticket (.num s))).ruleConfirmMatches =
      getRuleConfirmMatches call.password call.confirmPassword ∧
    (c.step (.resolve ticket (.num s))).isFormValid =
      (!call.showPassphraseScreen ||
        (decide (8 ≤ call.password.length) && decide (call.password = call.confirmPassword))) ∧
    (call.password = c.password → call.confirmPassword = c.confirmPassword →
      call.showPassphraseScreen = c.showPassphraseScreen →
      (c.step (.resolve ticket (.num s))).ruleLength = getRuleLength c.password ∧
      (c.step (.resolve ticket (.num s))).ruleConfirmMatches =
        getRuleConfirmMatches c.password c.confirmPassword ∧
      (c.step (.resolve ticket (.num s))).isFormValid =
        (!c.showPassphraseScreen ||
          (decide (8 ≤ c.password.length) && decide (c.password = c.confirmPassword)))) := by
  rw [step_resolve_classified c ticket call s hc h0 h1]
  refine ⟨rfl, rfl, getPasswordStrength_int s h0 h1, rfl, rfl, rfl, ?_⟩
  intro hp hq hs
  simp only [hp, hq, hs, and_self]

/-- Witness of C3 as amended: after "a" then "ab", call #2 has resolved and
call #1 resolves with score 10. -/
theorem C3_last_resolution_wins_witness :
    ((typedAThenAb.step (.resolve 2 (.num 40))).step
      (.resolve 1 (.num ((10 : ℤ) : ℚ)))).ruleLength = getRuleLength (utf16 "a") :=
  (C3_last_resolution_wins (typedAThenAb.step (.resolve 2 (.num 40))) 1
    { ticket := 1, password := utf16 "a", confirmPassword := [], showPassphraseScreen := true }
    10 (by decide) (by decide) (by decide)).2.2.2.1

/-- C3 as stated fails. Type "a" then "ab"; call #2 resolves (score 40,
`medium`) before call #1 (score 10, `weak`): every call has resolved, the
current password is "ab", and the stored strength is #1's. Likewise a
passphrase that matched its confirmation is edited to a mismatch; the call of
the edit resolves first, the older call last: the published validity is
`true` for a current input that does not match. -/
theorem C3_counterexample :
    (typedAThenAb.run [.resolve 2 (.num 40), .resolve 1 (.num 10)]).inFlight = [] ∧
    (typedAThenAb.run [.resolve 2 (.num 40), .resolve 1 (.num 10)]).password = utf16 "ab" ∧
    getPasswordStrength (.num 40) = .ok "medium" ∧
    (typedAThenAb.run [.resolve 2 (.num 40), .resolve 1 (.num 10)]).passwordStrength = "weak" ∧
    (typedMatchThenMismatch.run [.resolve 2 (.num 90), .resolve 1 (.num 80)]).inFlight = [] ∧
    (typedMatchThenMismatch.run [.resolve 2 (.num 90), .resolve 1 (.num 80)]).password ≠
      (typedMatchThenMismatch.run [.resolve 2 (.num 90), .resolve 1 (.num 80)]).confirmPassword ∧
    (typedMatchThenMismatch.run
      [.resolve 2 (.num 90), .resolve 1 (.num 80)]).showPassphraseScreen = true ∧
    (typedMatchThenMismatch.run
      [.resolve 2 (.num 90), .resolve 1 (.num 80)]).ruleConfirmMatches = "success" ∧
    (typedMatchThenMismatch.run
      [.resolve 2 (.num 90), .resolve 1 (.num 80)]).isFormValid = true := by
  refine ⟨by decide, by decide, rfl, by decide, by decide, by decide, by decide, by decide,
    by decide⟩

/-- C4, the code at the failing inputs: for a score in no level's range
`getPasswordStrength` throws at `level.id`, so `updateValidity` rejects before
any setter call; after an accepted passphrase is edited to a mismatch and the
oracle answers 101 (or `NaN`), the published validity is still `true` with the
gate active. -/
theorem C4_unclassifiable_score_throws :
    getPasswordStrength (.num (59 / 2)) = .error .typeError ∧
    getPasswordStrength (.num 101) = .error .typeError ∧
    getPasswordStrength (.num (-1)) = .error .typeError ∧
    getPasswordStrength .nan = .error .typeError ∧
    isValidStrength "" = false ∧
    updateValidity (utf16 "longenoughpass") (utf16 "x") true (.num 101) = .error .typeError ∧
    (acceptedThenEdited.step (.resolve 1 (.num 101))).inFlight = [] ∧
    (acceptedThenEdited.step (.resolve 1 (.num 101))).showPassphraseScreen = true ∧
    (acceptedThenEdited.step (.resolve 1 (.num 101))).password ≠
      (acceptedThenEdited.step (.resolve 1 (.num 101))).confirmPassword ∧
    (acceptedThenEdited.step (.resolve 1 (.num 101))).isFormValid = true ∧
    (acceptedThenEdited.step (.resolve 1 .nan)).inFlight = [] ∧
    (acceptedThenEdited.step (.resolve 1 .nan)).isFormValid = true := by
  refine ⟨?_, rfl, rfl, rfl, by decide, rfl, by decide, by decide, by decide, by decide,
    by decide, by decide⟩
  simp [getPasswordStrength, strengthLevels, StrengthLevel.holds, Score.geBound, Score.leBound]
  norm_num

/-- C5 as stated fails: with the gate active, after a valid passphrase was
accepted and the confirmation is edited to a mismatch, the call for the latest
input is in flight and the published validity is `true`. -/
theorem C5_counterexample :
    acceptedThenEdited.showPassphraseScreen = true ∧
    acceptedThenEdited.latestInFlight = true ∧
    acceptedThenEdited.password ≠ acceptedThenEdited.confirmPassword ∧
    acceptedThenEdited.isFormValid = true := by
  refine ⟨by decide, by decide, by decide, by decide⟩

theorem step_resolve_cases (c : DiskEncryption) (ticket : Nat) (value : Score) :
    c.step (.resolve ticket value) = c ∨
    ∃ call, c.inFlight.find? (fun k => k.ticket == ticket) = some call ∧
      ((∃ e, getPasswordStrength value = .error e ∧
        c.step (.resolve ticket value) =
          { c with inFlight := c.inFlight.filter (fun k => k.ticket != ticket) }) ∨
       (∃ strength, getPasswordStrength value = .ok strength ∧
        c.step (.resolve ticket value) =
          { c with
            inFlight := c.inFlight.filter (fun k => k.ticket != ticket)
            passwordStrength := strength
            ruleLength := getRuleLength call.password
            ruleConfirmMatches := getRuleConfirmMatches call.password call.confirmPassword
            isFormValid := !call.showPassphraseScreen ||
              (getRuleLength call.password == "success" &&
                getRuleConfirmMatches call.password call.confirmPassword == "success" &&
                isValidStrength strength) })) := by
  cases hfind : c.inFlight.find? (fun k => k.ticket == ticket) with
  | none => exact Or.inl (by simp only [DiskEncryption.step, hfind])
  | some call =>
    refine Or.inr ⟨call, rfl, ?_⟩
    cases hs : getPasswordStrength value with
    | error e =>
      exact Or.inl ⟨e, rfl, by simp only [DiskEncryption.step, hfind, updateValidity, hs]⟩
    | ok strength =>
      exact Or.inr ⟨strength, rfl, by
        simp only [DiskEncryption.step, hfind, updateValidity, hs, List.foldl,
          DiskEncryption.apply]⟩

theorem latestInFlight_filter (c : DiskEncryption) (ticket : Nat)
    (hl : c.latestInFlight = true) (ht : ticket + 1 ≠ c.issued) :
    (c.inFlight.filter (fun k => k.ticket != ticket)).any
      (fun call => call.ticket + 1 == c.issued) = true := by
  simp only [DiskEncryption.latestInFlight, List.any_eq_true, beq_iff_eq] at hl
  obtain ⟨call, hmem, hcall⟩ := hl
  simp only [List.any_eq_true, List.mem_filter, bne_iff_ne, ne_eq, beq_iff_eq]
  exact ⟨call, ⟨hmem, by omega⟩, hcall⟩

/-- C5 as amended: with the gate active, the published validity is not forced
to `false` while the oracle call for the latest input is pending, because
`updateValidity` publishes only after its `await`. Input changes (and a change
of the gate) leave the published validity, the stored strength and the rule
verdicts as they were; the published validity changes only when a call in
flight resolves with a classifiable score, and then to the value computed
from that call's own input; the resolution of an older call leaves the latest
call pending. So while the latest call is pending the validity is the one from
before the change or the one an older call has published since, and with a
hung oracle and no other resolution it stays what it was. -/
theorem C5_validity_changes_only_on_resolution (c : DiskEncryption) (events : List Event)
    (h : ∀ e ∈ events, e.isResolve = false) :
    ((c.run events).isFormValid = c.isFormValid ∧
      (c.run events).passwordStrength = c.passwordStrength ∧
      (c.run events).ruleLength = c.ruleLength ∧
      (c.run events).ruleConfirmMatches = c.ruleConfirmMatches) ∧
    (∀ ticket value, (c.step (.resolve ticket value)).isFormValid ≠ c.isFormValid →
      ∃ call ∈ c.inFlight, call.ticket = ticket ∧
        ∃ strength, getPasswordStrength value = .ok strength ∧
          (c.step (.resolve ticket value)).isFormValid =
            (!call.showPassphraseScreen ||
              (getRuleLength call.password == "success" &&
                getRuleConfirmMatches call.password call.confirmPassword == "success" &&
                isValidStrength strength))) ∧
    (∀ ticket value, c.latestInFlight = true → ticket + 1 ≠ c.issued →
      (c.step (.resolve ticket value)).latestInFlight = true) ∧
    (acceptedThenEdited.showPassphraseScreen = true ∧
      acceptedThenEdited.latestInFlight = true ∧
      acceptedThenEdited.isFormValid = true ∧
      (acceptedThenEdited.run
        [.setPassword (utf16 "other"), .setConfirmPassword (utf16 "y")]).isFormValid = true) ∧
    (typedMatchThenMismatch.showPassphraseScreen = true ∧
      typedMatchThenMismatch.latestInFlight = true ∧
      typedMatchThenMismatch.isFormValid = false ∧
      (typedMatchThenMismatch.step (.resolve 1 (.num 80))).latestInFlight = true ∧
      (typedMatchThenMismatch.step (.resolve 1 (.num 80))).isFormValid = true) := by
  refine ⟨run_not_resolve events c h, ?_, ?_, by decide, by decide⟩
  · intro ticket value hne
    rcases step_resolve_cases c ticket value with h0 | ⟨call, hfind, h1 | h1⟩
    · rw [h0] at hne
      exact absurd rfl hne
    · obtain ⟨e, _, hstep⟩ := h1
      rw [hstep] at hne
      exact absurd rfl hne
    · obtain ⟨strength, hs, hstep⟩ := h1
      refine ⟨call, List.mem_of_find?_eq_some hfind, ?_, strength, hs, ?_⟩
      · simpa using List.find?_some hfind
      · rw [hstep]
  · intro ticket value hl ht
    rcases step_resolve_cases c ticket value with h0 | ⟨call, hfind, h1 | h1⟩
    · rw [h0]
      exact hl
    · obtain ⟨e, _, hstep⟩ := h1
      rw [hstep]
      exact latestInFlight_filter c ticket hl ht
    · obtain ⟨strength, _, hstep⟩ := h1
      rw [hstep]
      exact latestInFlight_filter c ticket hl ht

/-- Witness of C5 as amended: two edits after a mount with validity `false`
publish nothing. -/
theorem C5_validity_changes_only_on_resolution_witness :
    (∀ e ∈ [Event.setPassword (utf16 "longenoughpass"),
        Event.setConfirmPassword (utf16 "longenoughpass")], e.isResolve = false) ∧
    ((DiskEncryption.mount [] [] true false).run
      [.setPassword (utf16 "longenoughpass"),
        .setConfirmPassword (utf16 "longenoughpass")]).isFormValid = false ∧
    ((DiskEncryption.mount [] [] true false).run
      [.setPassword (utf16 "longenoughpass"),
        .setConfirmPassword (utf16 "longenoughpass")]).latestInFlight = true ∧
    ((DiskEncryption.mount [] [] true false).run
      [.setPassword (utf16 "longenoughpass"),
        .setConfirmPassword (utf16 "longenoughpass")]).password =
      ((DiskEncryption.mount [] [] true false).run
        [.setPassword (utf16 "longenoughpass"),
          .setConfirmPassword (utf16 "longenoughpass")]).confirmPassword ∧
    ((DiskEncryption.mount [] [] true false).run
      [.setPassword (utf16 "longenoughpass"),
        .setConfirmPassword (utf16 "longenoughpass")]).ruleLength = "indeterminate" :=
  ⟨by simp [Event.isResolve],
    (C5_validity_changes_only_on_resolution (DiskEncryption.mount [] [] true false)
      [.setPassword (utf16 "longenoughpass"), .setConfirmPassword (utf16 "longenoughpass")]
      (by simp [Event.isResolve])).1.1,
    by decide, by decide, by decide⟩

/-- C8 as stated fails: for password "short" and an empty confirmation
`getRuleConfirmMatches` returns `error`, not `indeterminate`, and that is what
the controller stores once the oracle has answered. -/
theorem C8_counterexample :
    getRuleConfirmMatches (utf16 "short") (utf16 "") = "error" ∧
    getRuleConfirmMatches (utf16 "short") (utf16 "") ≠ "indeterminate" ∧
    ((DiskEncryption.mount [] [] true false).run
      [.setPassword (utf16 "short"), .resolve 1 (.num 0)]).ruleConfirmMatches ≠
        "indeterminate" := by
  refine ⟨by decide, by decide, by decide⟩

/-- C8 as amended: scenario A. With the gate active, password "short" and an
empty confirmation, once the oracle has answered (any integer score in
`0..100`) the controller holds `ruleLength = error`, `ruleConfirmMatches =
error` and has published validity `false`. -/
theorem C8_scenario_A (s : ℤ) (h0 : 0 ≤ s) (h1 : s ≤ 100) (isFormValid : Bool) :
    getRuleLength (utf16 "short") = "error" ∧
    getRuleConfirmMatches (utf16 "short") (utf16 "") = "error" ∧
    (∃ strength, updateValidity (utf16 "short") (utf16 "") true (.num s) =
      .ok [ .setPasswordStrength strength, .setRuleLength "error",
            .setRuleConfirmMatches "error", .setIsFormValid false ]) ∧
    ((DiskEncryption.mount [] [] true isFormValid).run
      [.setPassword (utf16 "short"), .resolve 1 (.num s)]).password = utf16 "short" ∧
    ((DiskEncryption.mount [] [] true isFormValid).run
      [.setPassword (utf16 "short"), .resolve 1 (.num s)]).confirmPassword = utf16 "" ∧
    ((DiskEncryption.mount [] [] true isFormValid).run
      [.setPassword (utf16 "short"), .resolve 1 (.num s)]).ruleLength = "error" ∧
    ((DiskEncryption.mount [] [] true isFormValid).run
      [.setPassword (utf16 "short"), .resolve 1 (.num s)]).ruleConfirmMatches = "error" ∧
    ((DiskEncryption.mount [] [] true isFormValid).run
      [.setPassword (utf16 "short"), .resolve 1 (.num s)]).isFormValid = false := by
  have a : getRuleLength (utf16 "short") = "error" := by decide
  have b : getRuleConfirmMatches (utf16 "short") (utf16 "") = "error" := by decide
  have v : (!true || (decide (8 ≤ (utf16 "short").length) &&
      decide (utf16 "short" = utf16 ""))) = false := by decide
  have hstep : (DiskEncryption.mount [] [] true isFormValid).run
      [.setPassword (utf16 "short"), .resolve 1 (.num s)] =
      ((DiskEncryption.mount [] [] true isFormValid).step
        (.setPassword (utf16 "short"))).step (.resolve 1 (.num s)) := rfl
  rw [hstep, step_resolve_classified
    ((DiskEncryption.mount [] [] true isFormValid).step (.setPassword (utf16 "short"))) 1
    { ticket := 1, password := utf16 "short", confirmPassword := [],
      showPassphraseScreen := true } s (by rfl) h0 h1]
  refine ⟨a, b, ⟨levelOf s, ?_⟩, rfl, rfl, a, b, v⟩
  rw [updateValidity_int _ _ _ s h0 h1, a, b, v]

/-- Witness of C8 as amended at score 0, the answer for an unacceptable
password. -/
theorem C8_scenario_A_witness :
    (0 : ℤ) ≤ 0 ∧ (0 : ℤ) ≤ 100 ∧
    ((DiskEncryption.mount [] [] true true).run
      [.setPassword (utf16 "short"), .resolve 1 (.num ((0 : ℤ) : ℚ))]).isFormValid = false :=
  ⟨by decide, by decide, (C8_scenario_A 0 (by decide) (by decide) true).2.2.2.2.2.2.2⟩


/-! ### Strings and sorting -/

theorem findIndexOf_isSome (s t : JSString) : (findIndexOf s t).isSome ↔ t <:+: s := by
  induction s with
  | nil =>
    cases t with
    | nil => simp [findIndexOf]
    | cons b t => simp [findIndexOf, List.isPrefixOf]
  | cons a s ih =>
    by_cases h : t.isPrefixOf (a :: s) = true
    · have hp : t <+: a :: s := List.isPrefixOf_iff_prefix.1 h
      simp only [findIndexOf, h, if_true, Option.isSome_some, true_iff]
      exact hp.isInfix
    · have hp : ¬ t <+: a :: s := fun hp => h (List.isPrefixOf_iff_prefix.2 hp)
      simp only [findIndexOf, h, Bool.false_eq_true, if_false, List.infix_cons_iff, hp,
        false_or]
      rw [← ih]
      cases findIndexOf s t <;> simp

theorem indexOf_ne_neg_one (s t : JSString) : indexOf s t ≠ -1 ↔ t <:+: s := by
  rw [← findIndexOf_isSome]
  unfold indexOf
  cases h : findIndexOf s t with
  | none => simp
  | some i => simp

theorem codeUnitsLe_total : ∀ a b : JSString, codeUnitsLe a b = true ∨ codeUnitsLe b a = true
  | [], _ => Or.inl rfl
  | _ :: _, [] => Or.inr rfl
  | a :: as, b :: bs => by
    simp only [codeUnitsLe, Bool.or_eq_true, decide_eq_true_eq, Bool.and_eq_true, beq_iff_eq]
    rcases Nat.lt_trichotomy a b with h | h | h
    · exact Or.inl (Or.inl h)
    · rcases codeUnitsLe_total as bs with t | t
      · exact Or.inl (Or.inr ⟨h, t⟩)
      · exact Or.inr (Or.inr ⟨h.symm, t⟩)
    · exact Or.inr (Or.inl h)

theorem codeUnitsLe_trans : ∀ a b c : JSString,
    codeUnitsLe a b = true → codeUnitsLe b c = true → codeUnitsLe a c = true
  | [], _, _ => fun _ _ => rfl
  | _ :: _, [], _ => fun h _ => by simp [codeUnitsLe] at h
  | _ :: _, _ :: _, [] => fun _ h => by simp [codeUnitsLe] at h
  | a :: as, b :: bs, c :: cs => by
    simp only [codeUnitsLe, Bool.or_eq_true, decide_eq_true_eq, Bool.and_eq_true, beq_iff_eq]
    rintro (h1 | ⟨h1, t1⟩) (h2 | ⟨h2, t2⟩)
    · exact Or.inl (by omega)
    · exact Or.inl (by omega)
    · exact Or.inl (by omega)
    · exact Or.inr ⟨by omega, codeUnitsLe_trans as bs cs t1 t2⟩

theorem sortStrings_sorted (keys : List JSString) :
    (sortStrings keys).Sorted (fun a b => codeUnitsLe a b = true) := by
  haveI : IsTotal JSString (fun a b => codeUnitsLe a b = true) := ⟨codeUnitsLe_total⟩
  haveI : IsTrans JSString (fun a b => codeUnitsLe a b = true) := ⟨codeUnitsLe_trans⟩
  exact List.sorted_insertionSort _ keys

theorem sortStrings_perm (keys : List JSString) : (sortStrings keys).Perm keys :=
  List.perm_insertionSort _ keys


/-! ### Rendering the options -/

theorem createMenuItems_locale (props : Props) (pfx : JSString) :
    ∀ (locales : List Locale) (foundSelected : Bool),
      (createMenuItems props pfx locales foundSelected).1.map MenuItem.locale = locales
  | [], _ => rfl
  | locale :: rest, foundSelected => by
    simp only [createMenuItems, List.map_cons, createMenuItems_locale props pfx rest]
    rfl

theorem formatLabel_eq (languageData : LanguageData) :
    formatLabel languageData.nativeName languageData.englishName = labelText languageData := by
  simp only [formatLabel, labelText]
  rfl

theorem listLanguage_shown (toLowerCase : JSString → JSString) (props : Props)
    (filter : JSString) (st : RenderState) (k : JSString) :
    (listLanguage toLowerCase props filter (toLowerCase filter) st k).filtered.map
        MenuOption.shown =
      st.filtered.map MenuOption.shown ++
        (groupFor toLowerCase props.languages filter k).toList ∧
    (listLanguage toLowerCase props filter (toLowerCase filter) st k).console = st.console := by
  unfold listLanguage groupFor
  cases h : props.languages.lookup k with
  | none => simp
  | some languageItem =>
    by_cases c : filter = [] ∨ labelContains toLowerCase filter languageItem
    · have c2 : filter = [] ∨
          indexOf (toLowerCase (labelText languageItem.languageData)) (toLowerCase filter) ≠
            -1 := by
        rw [indexOf_ne_neg_one]; exact c
      simp only [formatLabel_eq, c, c2, if_true, List.map_append, List.map_cons, List.map_nil,
        MenuOption.shown, createMenuItems_locale, groupShown, Option.toList, and_self]
    · have c2 : ¬ (filter = [] ∨
          indexOf (toLowerCase (labelText languageItem.languageData)) (toLowerCase filter) ≠
            -1) := by
        rw [indexOf_ne_neg_one]; exact c
      simp only [formatLabel_eq, c, c2, if_false, Option.toList, List.append_nil, and_self]

theorem foldl_listLanguage (toLowerCase : JSString → JSString) (props : Props)
    (filter : JSString) : ∀ (ks : List JSString) (st : RenderState),
    (ks.foldl (listLanguage toLowerCase props filter (toLowerCase filter)) st).filtered.map
        MenuOption.shown =
      st.filtered.map MenuOption.shown ++
        ks.filterMap (groupFor toLowerCase props.languages filter) ∧
    (ks.foldl (listLanguage toLowerCase props filter (toLowerCase filter)) st).console =
      st.console
  | [], st => by simp
  | k :: ks, st => by
    have h1 := listLanguage_shown toLowerCase props filter st k
    have h2 := foldl_listLanguage toLowerCase props filter ks
      (listLanguage toLowerCase props filter (toLowerCase filter) st k)
    simp only [List.foldl_cons]
    refine ⟨?_, h2.2.trans h1.2⟩
    rw [h2.1, h1.1, List.append_assoc]
    congr 1
    rw [List.filterMap_cons]
    cases groupFor toLowerCase props.languages filter k <;> rfl

theorem lookup_of_mem_keys : ∀ (languages : Languages) (k : JSString),
    k ∈ languages.map Prod.fst → ∃ item, languages.lookup k = some item ∧ (k, item) ∈ languages
  | [], _, h => by simp at h
  | (k0, v0) :: rest, k, h => by
    by_cases e : k = k0
    · subst e
      exact ⟨v0, by simp, by simp⟩
    · have hr : k ∈ rest.map Prod.fst := by
        simp only [List.map_cons, List.mem_cons] at h
        rcases h with h | h
        · exact absurd h e
        · exact h
      obtain ⟨item, h1, h2⟩ := lookup_of_mem_keys rest k hr
      refine ⟨item, ?_, List.mem_cons_of_mem _ h2⟩
      rw [List.lookup_cons]
      have : (k == k0) = false := by simpa using e
      simp [this, h1]

theorem filterMap_lookup_keys (languages : Languages) :
    ∀ ks : List JSString, (∀ k ∈ ks, k ∈ languages.map Prod.fst) →
      (ks.filterMap (fun k => (languages.lookup k).map
        (fun languageItem => (k, languageItem)))).map Prod.fst = ks
  | [], _ => rfl
  | k :: ks, h => by
    obtain ⟨item, h1, _⟩ := lookup_of_mem_keys languages k (h k (List.mem_cons_self k ks))
    have ih := filterMap_lookup_keys languages ks
      (fun x hx => h x (List.mem_cons_of_mem k hx))
    simp only [List.filterMap_cons, h1, Option.map_some', List.map_cons, ih]

theorem sortedEntries_keys (languages : Languages) :
    (sortedEntries languages).map Prod.fst = sortStrings (languages.map Prod.fst) :=
  filterMap_lookup_keys languages _
    (fun _ hk => (sortStrings_perm (languages.map Prod.fst)).mem_iff.1 hk)

theorem filterMap_lookup_self : ∀ languages : Languages, (languages.map Prod.fst).Nodup →
    (languages.map Prod.fst).filterMap (fun k => (languages.lookup k).map
      (fun languageItem => (k, languageItem))) = languages
  | [], _ => rfl
  | (k0, v0) :: rest, h => by
    simp only [List.map_cons, List.nodup_cons] at h
    have ih := filterMap_lookup_self rest h.2
    simp only [List.map_cons, List.filterMap_cons, List.lookup_cons_self, Option.map_some']
    congr 1
    refine (List.filterMap_congr ?_).trans ih
    intro k hk
    have e : (k == k0) = false := by
      have : k ≠ k0 := fun e => h.1 (e ▸ hk)
      simpa using this
    rw [List.lookup_cons, e]

theorem sortedEntries_perm (languages : Languages) (h : (languages.map Prod.fst).Nodup) :
    (sortedEntries languages).Perm languages := by
  have p := (sortStrings_perm (languages.map Prod.fst)).filterMap
    (fun k => (languages.lookup k).map (fun languageItem => (k, languageItem)))
  rw [filterMap_lookup_self languages h] at p
  exact p

theorem filterMap_groupFor (toLowerCase : JSString → JSString) (languages : Languages)
    (filter : JSString) : ∀ ks : List JSString,
    ks.filterMap (groupFor toLowerCase languages filter) =
      ((ks.filterMap (fun k => (languages.lookup k).map
          (fun languageItem => (k, languageItem)))).filter
        (fun e => decide (filter = [] ∨ labelContains toLowerCase filter e.2))).map
        (fun e => groupShown e.2)
  | [] => rfl
  | k :: ks => by
    have ih := filterMap_groupFor toLowerCase languages filter ks
    simp only [List.filterMap_cons, groupFor]
    cases h : languages.lookup k with
    | none => simpa [groupFor] using ih
    | some languageItem =>
      by_cases c : filter = [] ∨ labelContains toLowerCase filter languageItem
      · simp only [c, if_true, Option.map_some', List.filter_cons, decide_True, List.map_cons]
        rw [← ih]
      · simp only [c, if_false, Option.map_some', List.filter_cons, decide_False,
          Bool.false_eq_true]
        exact ih


theorem searchLocales_eq_none (localeCode : JSString) : ∀ languages : Languages,
    searchLocales localeCode languages = none ↔
      ∀ e ∈ languages, ∀ l ∈ e.2.locales, l.localeId ≠ localeCode
  | [] => by simp [searchLocales]
  | (k, languageItem) :: rest => by
    have ih := searchLocales_eq_none localeCode rest
    simp only [searchLocales]
    cases h : languageItem.locales.find? (fun locale => locale.localeId == localeCode) with
    | some locale =>
      have h1 := List.find?_some h
      have h2 := List.mem_of_find?_eq_some h
      simp only [false_iff, reduceCtorEq]
      intro hall
      exact hall (k, languageItem) (List.mem_cons_self _ _) locale h2 (by simpa using h1)
    | none =>
      simp only [ih, List.mem_cons, forall_eq_or_imp, iff_and_self]
      intro _ l hl
      have := List.find?_eq_none.1 h l hl
      simpa using this

theorem searchLocales_eq_some (localeCode : JSString) (locale : Locale) :
    ∀ languages : Languages, searchLocales localeCode languages = some locale →
      locale.localeId = localeCode ∧ ∃ e ∈ languages, locale ∈ e.2.locales
  | [], h => by simp [searchLocales] at h
  | (k, languageItem) :: rest, h => by
    simp only [searchLocales] at h
    cases hf : languageItem.locales.find? (fun l => l.localeId == localeCode) with
    | some l =>
      rw [hf] at h
      simp only [Option.some.injEq] at h
      subst h
      exact ⟨by simpa using List.find?_some hf, (k, languageItem), List.mem_cons_self _ _,
        List.mem_of_find?_eq_some hf⟩
    | none =>
      rw [hf] at h
      obtain ⟨h1, e, he, hl⟩ := searchLocales_eq_some localeCode locale rest h
      exact ⟨h1, e, List.mem_cons_of_mem _ he, hl⟩

theorem findLocaleWithId_fst (languages : Languages) (localeCode : JSString) :
    (findLocaleWithId languages localeCode).1 = searchLocales localeCode languages := by
  unfold findLocaleWithId
  cases searchLocales localeCode languages <;> rfl

theorem findLocaleWithId_console (languages : Languages) : ∀ codes : List JSString,
    ((codes.map (findLocaleWithId languages)).map (fun r => r.2)).flatten =
      (codes.filter (fun c => (findLocaleWithId languages c).1.isNone)).map notFoundWarning
  | [] => rfl
  | c :: cs => by
    have ih := findLocaleWithId_console languages cs
    simp only [List.map_cons, List.flatten_cons, ih, List.filter_cons]
    unfold findLocaleWithId
    cases searchLocales c languages <;> simp

/-- The state of `renderOptions` after its loop, for a non-empty filter. -/
theorem renderOptions_filtered (toLowerCase : JSString → JSString) (props : Props)
    (filter : JSString) (hf : filter ≠ []) :
    ((renderOptions toLowerCase props filter filter).1 =
        [.noResult (props.idPrefix ++ utf16 "search-no-result")] ∧
      ((sortedEntries props.languages).filter
        (fun e => decide (labelContains toLowerCase filter e.2))) = []) ∨
    ((renderOptions toLowerCase props filter filter).1 ≠ [] ∧
      (renderOptions toLowerCase props filter filter).1.map MenuOption.shown =
        ((sortedEntries props.languages).filter
          (fun e => decide (labelContains toLowerCase filter e.2))).map
          (fun e => groupShown e.2) ∧
      ((sortedEntries props.languages).filter
        (fun e => decide (labelContains toLowerCase filter e.2))) ≠ []) := by
  have hfold := (foldl_listLanguage toLowerCase props filter
    (sortStrings (props.languages.map Prod.fst))
    { filtered := [], foundSelected := false, console := [] }).1
  rw [filterMap_groupFor] at hfold
  simp only [hf, false_or, List.map_nil, List.nil_append] at hfold
  change _ = ((sortedEntries props.languages).filter
    (fun e => decide (labelContains toLowerCase filter e.2))).map (fun e => groupShown e.2)
    at hfold
  simp only [renderOptions, hf, if_false, ne_eq, not_false_eq_true, true_and]
  by_cases hl : (List.foldl (listLanguage toLowerCase props filter (toLowerCase filter))
      { filtered := [], foundSelected := false, console := [] }
      (sortStrings (props.languages.map Prod.fst))).filtered.length = 0
  · left
    rw [if_pos hl]
    refine ⟨rfl, ?_⟩
    rw [List.length_eq_zero] at hl
    rw [hl] at hfold
    simpa using hfold.symm
  · right
    rw [if_neg hl]
    have hne : (List.foldl (listLanguage toLowerCase props filter (toLowerCase filter))
      { filtered := [], foundSelected := false, console := [] }
      (sortStrings (props.languages.map Prod.fst))).filtered ≠ [] :=
      fun h => hl (by rw [h]; rfl)
    refine ⟨hne, hfold, ?_⟩
    intro h0
    rw [h0] at hfold
    exact hne (by simpa using hfold)


theorem sortedEntries_sorted (languages : Languages) :
    ((sortedEntries languages).map Prod.fst).Sorted (fun a b => codeUnitsLe a b = true) := by
  rw [sortedEntries_keys]
  exact sortStrings_sorted _

/-- C9: for every catalog (an object, so with distinct keys) and every
non-empty filter text, `renderOptions`, called as `render` calls it, returns
the single "no results" marker when no language's label
"{nativeName} ({englishName})" contains the filter case-insensitively, and
otherwise exactly the groups of the languages whose label contains it, in
ascending order of the language identifier, each labelled
"{nativeName} ({englishName})" and with all the locales of its language in
catalog order; the result is never empty. On the small catalog the filter
"SCH (ger", which only the whole label "Deutsch (German)" contains, gives the
German group. -/
theorem C9_renderOptions_filtered (toLowerCase : JSString → JSString) (props : Props)
    (filter : JSString) (hf : filter ≠ [])
    (hk : (props.languages.map Prod.fst).Nodup) :
    (sortedEntries props.languages).Perm props.languages ∧
    ((sortedEntries props.languages).map Prod.fst).Sorted
      (fun a b => codeUnitsLe a b = true) ∧
    ((∀ e ∈ props.languages,
        ¬ toLowerCase filter <:+: toLowerCase
          (e.2.languageData.nativeName ++ [0x20, 0x28] ++ e.2.languageData.englishName ++
            [0x29])) →
      (renderOptions toLowerCase props filter filter).1 =
        [.noResult (props.idPrefix ++ utf16 "search-no-result")]) ∧
    ((∃ e ∈ props.languages,
        toLowerCase filter <:+: toLowerCase
          (e.2.languageData.nativeName ++ [0x20, 0x28] ++ e.2.languageData.englishName ++
            [0x29])) →
      (renderOptions toLowerCase props filter filter).1.map MenuOption.shown =
        ((sortedEntries props.languages).filter
          (fun e => decide (toLowerCase filter <:+: toLowerCase
            (e.2.languageData.nativeName ++ [0x20, 0x28] ++ e.2.languageData.englishName ++
              [0x29])))).map
          (fun e => Shown.group
            (e.2.languageData.nativeName ++ [0x20, 0x28] ++ e.2.languageData.englishName ++
              [0x29])
            e.2.locales)) ∧
    (renderOptions toLowerCase props filter filter).1 ≠ [] ∧
    (renderOptions asciiLower sampleProps (utf16 "SCH (ger") (utf16 "SCH (ger")).1.map
        MenuOption.shown =
      [ .group
          [0x44, 0x65, 0x75, 0x74, 0x73, 0x63, 0x68, 0x20, 0x28,
            0x47, 0x65, 0x72, 0x6D, 0x61, 0x6E, 0x29]
          [{ localeId := utf16 "de_DE.UTF-8", nativeName := utf16 "Deutsch (Deutschland)" }] ] ∧
    (renderOptions asciiLower sampleProps (utf16 "German)") (utf16 "German)")).1.map
        MenuOption.shown =
      [ .group (utf16 "Deutsch (German)")
          [{ localeId := utf16 "de_DE.UTF-8", nativeName := utf16 "Deutsch (Deutschland)" }] ] ∧
    (renderOptions asciiLower sampleProps (utf16 "Deutsch(") (utf16 "Deutsch(")).1 =
      [.noResult (utf16 "installation-languagesearch-no-result")] := by
  have hp := sortedEntries_perm props.languages hk
  refine ⟨hp, sortedEntries_sorted props.languages, ?_, ?_, ?_, by decide, by decide,
    by decide⟩
  · intro hno
    rcases renderOptions_filtered toLowerCase props filter hf with ⟨h, _⟩ | ⟨_, _, h⟩
    · exact h
    · exfalso
      apply h
      rw [List.filter_eq_nil_iff]
      intro e he
      have := hno e (hp.mem_iff.1 he)
      simpa [labelContains, labelText] using this
  · rintro ⟨e, he, hc⟩
    rcases renderOptions_filtered toLowerCase props filter hf with ⟨_, h⟩ | ⟨_, h, _⟩
    · exfalso
      rw [List.filter_eq_nil_iff] at h
      have := h e (hp.mem_iff.2 he)
      simp only [decide_eq_true_eq] at this
      exact this hc
    · exact h
  · rcases renderOptions_filtered toLowerCase props filter hf with ⟨h, _⟩ | ⟨h, _, _⟩
    · rw [h]
      exact List.cons_ne_nil _ _
    · exact h

/-- Witness of C9: the filter "GER" on the small catalog shows the German
group only, with its label and its locale. -/
theorem C9_renderOptions_filtered_witness :
    utf16 "GER" ≠ [] ∧ (sampleProps.languages.map Prod.fst).Nodup ∧
    (renderOptions asciiLower sampleProps (utf16 "GER") (utf16 "GER")).1.map MenuOption.shown =
        ((sortedEntries sampleProps.languages).filter
          (fun e => decide (asciiLower (utf16 "GER") <:+: asciiLower
            (e.2.languageData.nativeName ++ [0x20, 0x28] ++ e.2.languageData.englishName ++
              [0x29])))).map
          (fun e => Shown.group
            (e.2.languageData.nativeName ++ [0x20, 0x28] ++ e.2.languageData.englishName ++
              [0x29])
            e.2.locales) ∧
    (renderOptions asciiLower sampleProps (utf16 "GER") (utf16 "GER")).1.map MenuOption.shown =
      [ .group (utf16 "Deutsch (German)")
          [{ localeId := utf16 "de_DE.UTF-8", nativeName := utf16 "Deutsch (Deutschland)" }] ] ∧
    (renderOptions asciiLower sampleProps (utf16 "e") (utf16 "e")).1.map MenuOption.shown =
      [ .group (utf16 "Čeština (Czech)")
          [{ localeId := utf16 "cs_CZ.UTF-8", nativeName := utf16 "Čeština (Česko)" }],
        .group (utf16 "Deutsch (German)")
          [{ localeId := utf16 "de_DE.UTF-8", nativeName := utf16 "Deutsch (Deutschland)" }],
        .group (utf16 "English (English)")
          [{ localeId := utf16 "en_US.UTF-8", nativeName := utf16 "English (United States)" },
           { localeId := utf16 "en_GB.UTF-8", nativeName := utf16 "English (United Kingdom)" }] ] :=
  ⟨by decide, by decide,
    (C9_renderOptions_filtered asciiLower sampleProps (utf16 "GER") (by decide)
      (by decide)).2.2.2.1 (by decide),
    by decide, by decide⟩

/-- C10: for every catalog (an object, so with distinct keys) and every list
of common locales, `renderOptions` with an empty filter returns first the
"common languages" group, whose entries are, in the order of `commonLocales`,
the locales `findLocaleWithId` finds for those identifiers (an identifier that
no language's locale list has is left out, after a warning and without an
exception), and then the group of every language of the catalog in ascending
order of the language identifier. -/
theorem C10_renderOptions_unfiltered (toLowerCase : JSString → JSString) (props : Props)
    (search : JSString) (hk : (props.languages.map Prod.fst).Nodup) :
    (renderOptions toLowerCase props search []).1.map MenuOption.shown =
      Shown.commonLanguages
          (props.commonLocales.filterMap (fun c => (findLocaleWithId props.languages c).1)) ::
        (sortedEntries props.languages).map (fun e => groupShown e.2) ∧
    (renderOptions toLowerCase props search []).2 =
      (props.commonLocales.filter
        (fun c => (findLocaleWithId props.languages c).1.isNone)).map notFoundWarning ∧
    (∀ c, (findLocaleWithId props.languages c).1 = none ↔
      ∀ e ∈ props.languages, ∀ l ∈ e.2.locales, l.localeId ≠ c) ∧
    (∀ c l, (findLocaleWithId props.languages c).1 = some l →
      l.localeId = c ∧ ∃ e ∈ props.languages, l ∈ e.2.locales) ∧
    (sortedEntries props.languages).Perm props.languages ∧
    ((sortedEntries props.languages).map Prod.fst).Sorted
      (fun a b => codeUnitsLe a b = true) := by
  refine ⟨?_, ?_, ?_, ?_, sortedEntries_perm props.languages hk,
    sortedEntries_sorted props.languages⟩
  · have hfold := (foldl_listLanguage toLowerCase props []
      (sortStrings (props.languages.map Prod.fst))
      (listCommon props { filtered := [], foundSelected := false, console := [] })).1
    rw [filterMap_groupFor] at hfold
    simp only [true_or, decide_True, List.filter_true] at hfold
    have hlen : (List.foldl (listLanguage toLowerCase props [] (toLowerCase []))
        (listCommon props { filtered := [], foundSelected := false, console := [] })
        (sortStrings (props.languages.map Prod.fst))).filtered.length ≠ 0 := by
      intro h0
      rw [List.length_eq_zero] at h0
      rw [h0] at hfold
      simp [listCommon] at hfold
    simp only [renderOptions, if_true, hlen, and_false, if_false]
    rw [hfold]
    simp only [listCommon, List.nil_append, List.map_cons, List.map_nil, MenuOption.shown,
      createMenuItems_locale, List.filterMap_map, List.singleton_append]
    rfl
  · have hfold := (foldl_listLanguage toLowerCase props []
      (sortStrings (props.languages.map Prod.fst))
      (listCommon props { filtered := [], foundSelected := false, console := [] }))
    have hlen : (List.foldl (listLanguage toLowerCase props [] (toLowerCase []))
        (listCommon props { filtered := [], foundSelected := false, console := [] })
        (sortStrings (props.languages.map Prod.fst))).filtered.length ≠ 0 := by
      intro h0
      rw [List.length_eq_zero] at h0
      have h1 := hfold.1
      rw [h0] at h1
      simp [listCommon] at h1
    simp only [renderOptions, if_true, hlen, and_false, if_false]
    rw [hfold.2]
    simp only [listCommon, List.nil_append, findLocaleWithId_console]
  · intro c
    rw [findLocaleWithId_fst]
    exact searchLocales_eq_none c props.languages
  · intro c l h
    rw [findLocaleWithId_fst] at h
    exact searchLocales_eq_some c l props.languages h

/-- Witness of C10 on the small catalog: "fr_FR.UTF-8" is in no locale list,
so it is left out of the common group and warned about. -/
theorem C10_renderOptions_unfiltered_witness :
    (sampleProps.languages.map Prod.fst).Nodup ∧
    (renderOptions asciiLower sampleProps [] []).1.map MenuOption.shown =
      Shown.commonLanguages
          (sampleProps.commonLocales.filterMap
            (fun c => (findLocaleWithId sampleProps.languages c).1)) ::
        (sortedEntries sampleProps.languages).map (fun e => groupShown e.2) ∧
    (sampleProps.commonLocales.filterMap
        (fun c => (findLocaleWithId sampleProps.languages c).1)).map Locale.localeId =
      [utf16 "en_US.UTF-8", utf16 "de_DE.UTF-8"] ∧
    (renderOptions asciiLower sampleProps [] []).2 =
      [utf16 "Locale with code fr_FR.UTF-8 not found."] :=
  ⟨by decide,
    (C10_renderOptions_unfiltered asciiLower sampleProps [] (by decide)).1,
    by decide, by decide⟩


/-! ### Round trip through the catalog -/

theorem find_of_nodup : ∀ (locales : List Locale) (l : Locale),
    (locales.map Locale.localeId).Nodup → l ∈ locales →
      locales.find? (fun locale => locale.localeId == l.localeId) = some l
  | [], _, _, h => by simp at h
  | a :: rest, l, hn, h => by
    simp only [List.map_cons, List.nodup_cons] at hn
    by_cases e : a = l
    · subst e
      simp
    · have hl : l ∈ rest := by
        rcases List.mem_cons.1 h with h | h
        · exact absurd h.symm e
        · exact h
      have hne : a.localeId ≠ l.localeId := by
        intro hid
        exact hn.1 (hid ▸ List.mem_map_of_mem Locale.localeId hl)
      have hb : (a.localeId == l.localeId) = false := by simpa using hne
      rw [List.find?_cons, hb]
      exact find_of_nodup rest l hn.2 hl

theorem mem_of_lookup : ∀ (languages : Languages) (k : JSString) (item : LanguageItem),
    languages.lookup k = some item → (k, item) ∈ languages
  | [], _, _, h => by simp at h
  | (k0, v0) :: rest, k, item, h => by
    rw [List.lookup_cons] at h
    by_cases e : (k == k0) = true
    · rw [e] at h
      simp only [Option.some.injEq] at h
      have hk : k = k0 := by simpa using e
      subst hk
      subst h
      exact List.mem_cons_self _ _
    · have e2 : (k == k0) = false := by simpa using e
      rw [e2] at h
      exact List.mem_cons_of_mem _ (mem_of_lookup rest k item h)

theorem shown_locales (o : MenuOption) :
    o.shown.locales = o.items.map MenuItem.locale := by
  cases o <;> rfl

/-- What `renderOptions` returns, as shown, for any filter and any
`state.search`. -/
theorem renderOptions_shown (toLowerCase : JSString → JSString) (props : Props)
    (search filter : JSString) :
    (renderOptions toLowerCase props search filter).1 =
        [.noResult (props.idPrefix ++ utf16 "search-no-result")] ∨
    (renderOptions toLowerCase props search filter).1.map MenuOption.shown =
      (if filter = [] then
        [Shown.commonLanguages
          (props.commonLocales.filterMap (fun c => (findLocaleWithId props.languages c).1))]
      else []) ++
      (sortStrings (props.languages.map Prod.fst)).filterMap
        (groupFor toLowerCase props.languages filter) := by
  by_cases hf : filter = []
  · subst hf
    right
    have hfold := (foldl_listLanguage toLowerCase props []
      (sortStrings (props.languages.map Prod.fst))
      (listCommon props { filtered := [], foundSelected := false, console := [] })).1
    have hlen : (List.foldl (listLanguage toLowerCase props [] (toLowerCase []))
        (listCommon props { filtered := [], foundSelected := false, console := [] })
        (sortStrings (props.languages.map Prod.fst))).filtered.length ≠ 0 := by
      intro h0
      rw [List.length_eq_zero] at h0
      rw [h0] at hfold
      simp [listCommon] at hfold
    simp only [renderOptions, if_true, hlen, and_false, if_false]
    rw [hfold]
    simp only [listCommon, List.nil_append, List.map_cons, List.map_nil, MenuOption.shown,
      createMenuItems_locale, List.filterMap_map]
    rfl
  · have hfold := (foldl_listLanguage toLowerCase props filter
      (sortStrings (props.languages.map Prod.fst))
      { filtered := [], foundSelected := false, console := [] }).1
    simp only [List.map_nil, List.nil_append] at hfold
    simp only [renderOptions, hf, if_false, List.nil_append]
    split_ifs with h
    · exact Or.inl rfl
    · exact Or.inr hfold


theorem searchLocales_of_mem : ∀ (languages : Languages), underOneLanguage languages →
    onceInItsList languages → ∀ e ∈ languages, ∀ l ∈ e.2.locales,
      searchLocales l.localeId languages = some l
  | [], _, _, e, he, _, _ => by simp at he
  | e0 :: rest, hU, hN, e, he, l, hl => by
    obtain ⟨k0, item0⟩ := e0
    simp only [searchLocales]
    cases hfind : item0.locales.find? (fun locale => locale.localeId == l.localeId) with
    | some l0 =>
      have hid : l0.localeId = l.localeId := by simpa using List.find?_some hfind
      have hmem0 : l0 ∈ item0.locales := List.mem_of_find?_eq_some hfind
      have hsame : (k0, item0) = e :=
        hU (k0, item0) (List.mem_cons_self _ _) e he l0 hmem0 l hl hid
      subst hsame
      have := find_of_nodup item0.locales l (hN (k0, item0) (List.mem_cons_self _ _)) hl
      rw [hfind] at this
      exact this
    | none =>
      have hne : e ≠ (k0, item0) := by
        intro heq
        subst heq
        have := List.find?_eq_none.1 hfind l hl
        simp at this
      have her : e ∈ rest := by
        rcases List.mem_cons.1 he with h | h
        · exact absurd h hne
        · exact h
      exact searchLocales_of_mem rest
        (fun e1 h1 e2 h2 => hU e1 (List.mem_cons_of_mem _ h1) e2 (List.mem_cons_of_mem _ h2))
        (fun x hx => hN x (List.mem_cons_of_mem _ hx)) e her l hl

theorem round_trip_shown (toLowerCase : JSString → JSString) (props : Props)
    (search filter : JSString)
    (h1 : underOneLanguage props.languages) (h2 : onceInItsList props.languages) :
    ∀ sh ∈ (renderOptions toLowerCase props search filter).1.map MenuOption.shown,
      ∀ l ∈ sh.locales, searchLocales l.localeId props.languages = some l := by
  intro sh hsh l hl
  rcases renderOptions_shown toLowerCase props search filter with h | h
  · rw [h] at hsh
    simp only [List.map_cons, List.map_nil, List.mem_singleton, MenuOption.shown] at hsh
    subst hsh
    simp [Shown.locales] at hl
  · rw [h, List.mem_append] at hsh
    rcases hsh with hc | hg
    · split_ifs at hc with hf
      · simp only [List.mem_singleton] at hc
        subst hc
        simp only [Shown.locales, List.mem_filterMap] at hl
        obtain ⟨c, _, hfound⟩ := hl
        rw [findLocaleWithId_fst] at hfound
        have hid := (searchLocales_eq_some c l props.languages hfound).1
        rw [hid]
        exact hfound
      · simp at hc
    · rw [List.mem_filterMap] at hg
      obtain ⟨k, _, hk⟩ := hg
      unfold groupFor at hk
      cases hlook : props.languages.lookup k with
      | none => simp [hlook] at hk
      | some languageItem =>
        rw [hlook] at hk
        simp only [] at hk
        split_ifs at hk
        simp only [Option.some.injEq] at hk
        subst hk
        simp only [groupShown, Shown.locales] at hl
        exact searchLocales_of_mem props.languages h1 h2 (k, languageItem)
          (mem_of_lookup _ _ _ hlook) l hl

/-- C11 as stated fails. In a catalog whose only language lists the
identifier "en_US.UTF-8" twice, every identifier appears under exactly one
language; `renderOptions` shows both entries, and `findLocaleWithId` returns
the first of them for the second. -/
theorem C11_counterexample :
    underOneLanguage repeatedIdProps.languages ∧
    (repeatedIdProps.languages.map Prod.fst).Nodup ∧
    (renderOptions asciiLower repeatedIdProps [] []).1.map MenuOption.shown =
      [ .commonLanguages [],
        .group (utf16 "English (English)")
          [{ localeId := utf16 "en_US.UTF-8", nativeName := utf16 "A" },
           { localeId := utf16 "en_US.UTF-8", nativeName := utf16 "B" }] ] ∧
    findLocaleWithId repeatedIdProps.languages (utf16 "en_US.UTF-8") =
      (some { localeId := utf16 "en_US.UTF-8", nativeName := utf16 "A" }, []) ∧
    ¬ (∀ o ∈ (renderOptions asciiLower repeatedIdProps [] []).1, ∀ item ∈ o.items,
      findLocaleWithId repeatedIdProps.languages item.itemId = (some item.locale, [])) := by
  refine ⟨by decide, by decide, by decide, by decide, by decide⟩

/-- C11 as amended: round trip. For every catalog in which each locale
identifier appears under exactly one language and only once in that
language's list, every filter text and every locale entry
`renderOptions(filter)` returns, in the common group or in a language group,
`findLocaleWithId` applied to the entry's locale identifier returns that same
locale, without a warning. -/
theorem C11_round_trip (toLowerCase : JSString → JSString) (props : Props)
    (search filter : JSString)
    (h1 : underOneLanguage props.languages) (h2 : onceInItsList props.languages) :
    ∀ o ∈ (renderOptions toLowerCase props search filter).1, ∀ item ∈ o.items,
      findLocaleWithId props.languages item.itemId = (some item.locale, []) := by
  intro o ho item hitem
  have h := round_trip_shown toLowerCase props search filter h1 h2 o.shown
    (List.mem_map_of_mem MenuOption.shown ho) item.locale
    (by rw [shown_locales]; exact List.mem_map_of_mem MenuItem.locale hitem)
  have h3 : searchLocales item.itemId props.languages = some item.locale := h
  unfold findLocaleWithId
  rw [h3]

/-- Witness of C11 as amended on the small catalog, for the empty filter: the
five entries shown (two common, then one Czech, one German, two English, in
the order of the keys) all round-trip. -/
theorem C11_round_trip_witness :
    underOneLanguage sampleProps.languages ∧ onceInItsList sampleProps.languages ∧
    (∀ o ∈ (renderOptions asciiLower sampleProps [] []).1, ∀ item ∈ o.items,
      findLocaleWithId sampleProps.languages item.itemId = (some item.locale, [])) ∧
    (renderOptions asciiLower sampleProps [] []).1.map
        (fun o => o.items.map (fun item => item.itemId)) =
      [ [utf16 "en_US.UTF-8", utf16 "de_DE.UTF-8"], [utf16 "cs_CZ.UTF-8"],
        [utf16 "de_DE.UTF-8"], [utf16 "en_US.UTF-8", utf16 "en_GB.UTF-8"] ] ∧
    findLocaleWithId sampleProps.languages (utf16 "en_GB.UTF-8") =
      (some { localeId := utf16 "en_GB.UTF-8", nativeName := utf16 "English (United Kingdom)" },
        []) :=
  ⟨by decide, by decide,
    C11_round_trip asciiLower sampleProps [] [] (by decide) (by decide), by decide, by decide⟩

/-! ### Selecting a language -/

theorem handleOnSelect_found (convertToCockpitLang : JSString → JSString)
    (languages : Languages) (item : JSString) (localeItem : Locale)
    (hsel : searchLocales item languages = some localeItem) :
    handleOnSelect convertToCockpitLang languages item =
      { trace :=
          [ .setLangCookie (convertToCockpitLang item), .setLanguage item, .setState item,
            .setNativeName localeItem.nativeName, .fetchPo ]
        setLanguagePending := some item
        setLocalePending := false
        fetchPending := some item } := by
  have hid := (searchLocales_eq_some item localeItem languages hsel).1
  unfold handleOnSelect
  rw [hsel]
  simp only [hid]

theorem step_trace_extends (s : Selection) (e : SelectEvent) :
    ∃ more, (s.step e).trace = s.trace ++ more := by
  cases e with
  | setLanguageSettled r =>
    simp only [Selection.step]
    cases s.setLanguagePending with
    | none => exact ⟨[], by simp⟩
    | some localeId => cases r <;> exact ⟨_, rfl⟩
  | setLocaleSettled r =>
    simp only [Selection.step]
    split_ifs
    · cases r
      · exact ⟨[], by simp⟩
      · exact ⟨_, rfl⟩
    · exact ⟨[], by simp⟩
  | bundleLoaded body evalThrows =>
    simp only [Selection.step]
    cases s.fetchPending with
    | none => exact ⟨[], by simp⟩
    | some item => exact ⟨_, rfl⟩
  | bundleFailed => exact ⟨[], by simp [Selection.step]⟩

theorem run_trace_extends : ∀ (events : List SelectEvent) (s : Selection),
    ∃ more, (s.run events).trace = s.trace ++ more
  | [], s => ⟨[], by simp [Selection.run]⟩
  | e :: es, s => by
    obtain ⟨m1, h1⟩ := step_trace_extends s e
    obtain ⟨m2, h2⟩ := run_trace_extends es (s.step e)
    refine ⟨m1 ++ m2, ?_⟩
    simp only [Selection.run, List.foldl_cons] at h2 ⊢
    rw [h2, h1, List.append_assoc]

theorem not_mem_swapTranslation (item body l : JSString) (evalThrows : Bool) :
    UiEffect.setLocale l ∉ swapTranslation item body evalThrows := by
  unfold swapTranslation
  split_ifs <;> simp

theorem step_setLocale (s : Selection) (e : SelectEvent) (l : JSString)
    (h : UiEffect.setLocale l ∈ (s.step e).trace) :
    UiEffect.setLocale l ∈ s.trace ∨
      (e = .setLanguageSettled none ∧ s.setLanguagePending ≠ none) := by
  cases e with
  | setLanguageSettled r =>
    simp only [Selection.step] at h
    cases hp : s.setLanguagePending with
    | none => rw [hp] at h; exact Or.inl h
    | some localeId =>
      rw [hp] at h
      cases r with
      | none => exact Or.inr ⟨rfl, by simp⟩
      | some ex =>
        simp only [List.mem_append, List.mem_cons, List.mem_singleton, reduceCtorEq,
          List.mem_nil_iff, or_false] at h
        exact Or.inl h
  | setLocaleSettled r =>
    simp only [Selection.step] at h
    split_ifs at h
    · cases r with
      | none => exact Or.inl h
      | some ex =>
        simp only [List.mem_append, List.mem_cons, List.mem_singleton, reduceCtorEq,
          List.mem_nil_iff, or_false] at h
        exact Or.inl h
    · exact Or.inl h
  | bundleLoaded body evalThrows =>
    simp only [Selection.step] at h
    cases hp : s.fetchPending with
    | none => rw [hp] at h; exact Or.inl h
    | some item =>
      rw [hp] at h
      simp only [List.mem_append] at h
      rcases h with h | h
      · exact Or.inl h
      · exact absurd h (not_mem_swapTranslation item body l evalThrows)
  | bundleFailed => exact Or.inl h

theorem step_setLanguagePending_none (s : Selection) (e : SelectEvent)
    (h : s.setLanguagePending = none) : (s.step e).setLanguagePending = none := by
  cases e with
  | setLanguageSettled r => simp [Selection.step, h]
  | setLocaleSettled r =>
    simp only [Selection.step]
    split_ifs
    · cases r <;> exact h
    · exact h
  | bundleLoaded body evalThrows =>
    simp only [Selection.step]
    cases s.fetchPending <;> exact h
  | bundleFailed => exact h

theorem run_setLocale : ∀ (events : List SelectEvent) (s : Selection) (l : JSString),
    UiEffect.setLocale l ∈ (s.run events).trace →
      UiEffect.setLocale l ∈ s.trace ∨
        (SelectEvent.setLanguageSettled none ∈ events ∧ s.setLanguagePending ≠ none)
  | [], _, _, h => Or.inl h
  | e :: es, s, l, h => by
    simp only [Selection.run, List.foldl_cons] at h
    rcases run_setLocale es (s.step e) l h with h1 | ⟨h1, h2⟩
    · rcases step_setLocale s e l h1 with h3 | ⟨h3, h4⟩
      · exact Or.inl h3
      · exact Or.inr ⟨h3 ▸ List.mem_cons_self _ _, h4⟩
    · refine Or.inr ⟨List.mem_cons_of_mem _ h1, ?_⟩
      intro hn
      exact h2 (step_setLanguagePending_none s e hn)

theorem step_fetchPending (s : Selection) (e : SelectEvent) (h : e.isBundle = false) :
    (s.step e).fetchPending = s.fetchPending := by
  cases e with
  | setLanguageSettled r =>
    simp only [Selection.step]
    cases s.setLanguagePending with
    | none => rfl
    | some localeId => cases r <;> rfl
  | setLocaleSettled r =>
    simp only [Selection.step]
    split_ifs
    · cases r <;> rfl
    · rfl
  | bundleLoaded body evalThrows => simp [SelectEvent.isBundle] at h
  | bundleFailed => simp [SelectEvent.isBundle] at h

theorem run_fetchPending : ∀ (events : List SelectEvent) (s : Selection),
    (∀ e ∈ events, e.isBundle = false) → (s.run events).fetchPending = s.fetchPending
  | [], _, _ => rfl
  | e :: es, s, h => by
    have h1 := step_fetchPending s e (h e (List.mem_cons_self _ _))
    have h2 := run_fetchPending es (s.step e) (fun x hx => h x (List.mem_cons_of_mem _ hx))
    simp only [Selection.run, List.foldl_cons] at h2 ⊢
    rw [h2, h1]


/-- C12 as stated fails. Select "de_DE.UTF-8" in the small catalog: the bundle
fetch is issued in the same synchronous call as `setLanguage`, while that
call is still pending. `setLanguage` then rejects, the error goes to
`setStepNotification` and `setLocale` is never called; when the bundle
arrives all the same, an empty one resets the translation and `reRenderApp`
is called, and a script that `eval` runs normally is run, the "cockpit-lang"
event is dispatched and `reRenderApp` is called. -/
theorem C12_counterexample :
    (handleOnSelect sampleCockpitLang sampleLanguages (utf16 "de_DE.UTF-8")).setLanguagePending =
      some (utf16 "de_DE.UTF-8") ∧
    (handleOnSelect sampleCockpitLang sampleLanguages (utf16 "de_DE.UTF-8")).trace =
      [ .setLangCookie (utf16 "de_DE"), .setLanguage (utf16 "de_DE.UTF-8"),
        .setState (utf16 "de_DE.UTF-8"), .setNativeName (utf16 "Deutsch (Deutschland)"),
        .fetchPo ] ∧
    ((handleOnSelect sampleCockpitLang sampleLanguages (utf16 "de_DE.UTF-8")).run
        [.setLanguageSettled (some (utf16 "denied")), .bundleLoaded (utf16 "") false]).trace =
      [ .setLangCookie (utf16 "de_DE"), .setLanguage (utf16 "de_DE.UTF-8"),
        .setState (utf16 "de_DE.UTF-8"), .setNativeName (utf16 "Deutsch (Deutschland)"),
        .fetchPo,
        .consoleInfo (utf16 "denied"), .setStepNotification (utf16 "denied"),
        .cockpitLocaleNull, .cockpitLocaleNull, .reRenderApp (utf16 "de_DE.UTF-8") ] ∧
    ((handleOnSelect sampleCockpitLang sampleLanguages (utf16 "de_DE.UTF-8")).run
        [ .setLanguageSettled (some (utf16 "denied")),
          .bundleLoaded (utf16 "cockpit.locale(null);") false ]).trace =
      [ .setLangCookie (utf16 "de_DE"), .setLanguage (utf16 "de_DE.UTF-8"),
        .setState (utf16 "de_DE.UTF-8"), .setNativeName (utf16 "Deutsch (Deutschland)"),
        .fetchPo,
        .consoleInfo (utf16 "denied"), .setStepNotification (utf16 "denied"),
        .cockpitLocaleNull, .evalBody (utf16 "cockpit.locale(null);"), .dispatchCockpitLang,
        .reRenderApp (utf16 "de_DE.UTF-8") ] := by
  refine ⟨by decide, by decide, by decide, by decide⟩

/-- C12 as amended: in `handleOnSelect`, for every selected locale present in
the catalog, `setLocale` is called only after `setLanguage` has succeeded, and
a rejection of either call is passed to `setStepNotification` and ends the
backend chain (after a rejected `setLanguage`, `setLocale` is never called).
The bundle fetch is issued in the same synchronous call, before either
backend call has settled, and whatever the backend calls did, when the bundle
arrives the old translation is reset; an empty bundle resets it once more and
`reRenderApp` is called; a non-empty bundle is passed to `eval`, and if that
returns normally the "cockpit-lang" event is dispatched and `reRenderApp` is
called, while if it throws nothing more happens. -/
theorem C12_backend_chain_and_bundle_chain (convertToCockpitLang : JSString → JSString)
    (languages : Languages) (item : JSString) (localeItem : Locale)
    (hsel : searchLocales item languages = some localeItem) :
    (handleOnSelect convertToCockpitLang languages item).trace =
      [ .setLangCookie (convertToCockpitLang item), .setLanguage item, .setState item,
        .setNativeName localeItem.nativeName, .fetchPo ] ∧
    (∀ ex, ((handleOnSelect convertToCockpitLang languages item).step
        (.setLanguageSettled (some ex))).trace =
      (handleOnSelect convertToCockpitLang languages item).trace ++
        [.consoleInfo ex, .setStepNotification ex]) ∧
    (∀ ex events l, UiEffect.setLocale l ∉
      (((handleOnSelect convertToCockpitLang languages item).step
        (.setLanguageSettled (some ex))).run events).trace) ∧
    (∀ ex, ((handleOnSelect convertToCockpitLang languages item).run
        [.setLanguageSettled none, .setLocaleSettled (some ex)]).trace =
      (handleOnSelect convertToCockpitLang languages item).trace ++
        [.setLocale item, .consoleInfo ex, .setStepNotification ex]) ∧
    (∀ events l, UiEffect.setLocale l ∈
        ((handleOnSelect convertToCockpitLang languages item).run events).trace →
      SelectEvent.setLanguageSettled none ∈ events) ∧
    (∀ events body evalThrows, (∀ e ∈ events, e.isBundle = false) →
      trimIsEmpty body = true →
      (((handleOnSelect convertToCockpitLang languages item).run events).step
        (.bundleLoaded body evalThrows)).trace =
      ((handleOnSelect convertToCockpitLang languages item).run events).trace ++
        [.cockpitLocaleNull, .cockpitLocaleNull, .reRenderApp item]) ∧
    (∀ events body, (∀ e ∈ events, e.isBundle = false) → trimIsEmpty body = false →
      (((handleOnSelect convertToCockpitLang languages item).run events).step
        (.bundleLoaded body false)).trace =
      ((handleOnSelect convertToCockpitLang languages item).run events).trace ++
        [.cockpitLocaleNull, .evalBody body, .dispatchCockpitLang, .reRenderApp item]) ∧
    (∀ events body, (∀ e ∈ events, e.isBundle = false) → trimIsEmpty body = false →
      (((handleOnSelect convertToCockpitLang languages item).run events).step
        (.bundleLoaded body true)).trace =
      ((handleOnSelect convertToCockpitLang languages item).run events).trace ++
        [.cockpitLocaleNull, .evalBody body]) := by
  rw [handleOnSelect_found convertToCockpitLang languages item localeItem hsel]
  have hp := fun events hb => run_fetchPending events
    { trace :=
        [ .setLangCookie (convertToCockpitLang item), .setLanguage item, .setState item,
          .setNativeName localeItem.nativeName, .fetchPo ]
      setLanguagePending := some item
      setLocalePending := false
      fetchPending := some item } hb
  refine ⟨rfl, fun ex => rfl, ?_, fun ex => rfl, ?_, ?_, ?_, ?_⟩
  · intro ex events l hmem
    rcases run_setLocale events _ l hmem with h | ⟨_, h⟩
    · simp [Selection.step] at h
    · exact h rfl
  · intro events l hmem
    rcases run_setLocale events _ l hmem with h | ⟨h, _⟩
    · simp at h
    · exact h
  · intro events body evalThrows hb ht
    simp only [Selection.step, hp events hb, swapTranslation, ht, if_true]
  · intro events body hb ht
    simp only [Selection.step, hp events hb, swapTranslation, ht, Bool.false_eq_true, if_false]
  · intro events body hb ht
    simp only [Selection.step, hp events hb, swapTranslation, ht, Bool.false_eq_true, if_false,
      if_true]

/-- Witness of C12 as amended: "de_DE.UTF-8" in the small catalog, `setLanguage`
succeeds, `setLocale` rejects, and a bundle that `eval` runs normally
arrives. -/
theorem C12_backend_chain_and_bundle_chain_witness :
    searchLocales (utf16 "de_DE.UTF-8") sampleLanguages =
      some { localeId := utf16 "de_DE.UTF-8", nativeName := utf16 "Deutsch (Deutschland)" } ∧
    (∀ e ∈ [SelectEvent.setLanguageSettled none,
        SelectEvent.setLocaleSettled (some (utf16 "denied"))], e.isBundle = false) ∧
    trimIsEmpty (utf16 "cockpit.locale(null);") = false ∧
    (((handleOnSelect sampleCockpitLang sampleLanguages (utf16 "de_DE.UTF-8")).run
        [.setLanguageSettled none, .setLocaleSettled (some (utf16 "denied"))]).step
        (.bundleLoaded (utf16 "cockpit.locale(null);") false)).trace =
      ((handleOnSelect sampleCockpitLang sampleLanguages (utf16 "de_DE.UTF-8")).run
        [.setLanguageSettled none, .setLocaleSettled (some (utf16 "denied"))]).trace ++
        [ .cockpitLocaleNull, .evalBody (utf16 "cockpit.locale(null);"), .dispatchCockpitLang,
          .reRenderApp (utf16 "de_DE.UTF-8") ] ∧
    (((handleOnSelect sampleCockpitLang sampleLanguages (utf16 "de_DE.UTF-8")).run
        [.setLanguageSettled none, .setLocaleSettled (some (utf16 "denied"))]).step
        (.bundleLoaded (utf16 "cockpit.locale(null);") false)).trace =
      [ .setLangCookie (utf16 "de_DE"), .setLanguage (utf16 "de_DE.UTF-8"),
        .setState (utf16 "de_DE.UTF-8"), .setNativeName (utf16 "Deutsch (Deutschland)"),
        .fetchPo,
        .setLocale (utf16 "de_DE.UTF-8"),
        .consoleInfo (utf16 "denied"), .setStepNotification (utf16 "denied"),
        .cockpitLocaleNull, .evalBody (utf16 "cockpit.locale(null);"), .dispatchCockpitLang,
        .reRenderApp (utf16 "de_DE.UTF-8") ] ∧
    (((handleOnSelect sampleCockpitLang sampleLanguages (utf16 "de_DE.UTF-8")).run
        [.setLanguageSettled none, .setLocaleSettled (some (utf16 "denied"))]).step
        (.bundleLoaded (utf16 "po") true)).trace =
      [ .setLangCookie (utf16 "de_DE"), .setLanguage (utf16 "de_DE.UTF-8"),
        .setState (utf16 "de_DE.UTF-8"), .setNativeName (utf16 "Deutsch (Deutschland)"),
        .fetchPo,
        .setLocale (utf16 "de_DE.UTF-8"),
        .consoleInfo (utf16 "denied"), .setStepNotification (utf16 "denied"),
        .cockpitLocaleNull, .evalBody (utf16 "po") ] :=
  ⟨by decide, by decide, by decide,
    (C12_backend_chain_and_bundle_chain sampleCockpitLang sampleLanguages (utf16 "de_DE.UTF-8")
      { localeId := utf16 "de_DE.UTF-8", nativeName := utf16 "Deutsch (Deutschland)" }
      (by decide)).2.2.2.2.2.2.1
      [.setLanguageSettled none, .setLocaleSettled (some (utf16 "denied"))]
      (utf16 "cockpit.locale(null);") (by decide) (by decide),
    by decide, by decide⟩

/-- C13: the persisted locale marker is written first. In `handleOnSelect`,
for every selected locale present in the catalog, the first effect is
`setLangCookie` with `convertToCockpitLang` of the selected locale identifier,
before `setLanguage`, the bundle fetch and (in every continuation)
`setLocale`. In `componentDidMount`, when `getLangCookie()` differs from the
normalized current language, `setLangCookie` is called before the reload and
before `setLocale`; when it is equal there is no marker write and no reload,
and `setLocale` is still called. -/
theorem C13_marker_written_first (convertToCockpitLang : JSString → JSString)
    (languages : Languages) (item : JSString) (localeItem : Locale)
    (hsel : searchLocales item languages = some localeItem) :
    localeItem.localeId = item ∧
    (∀ events, ∃ later,
      ((handleOnSelect convertToCockpitLang languages item).run events).trace =
        [ .setLangCookie (convertToCockpitLang localeItem.localeId),
          .setLanguage localeItem.localeId, .setState item,
          .setNativeName localeItem.nativeName, .fetchPo ] ++ later) ∧
    (∀ language langCookie, langCookie ≠ some (convertToCockpitLang language) →
      componentDidMount convertToCockpitLang language langCookie =
        [ .setLangCookie (convertToCockpitLang language), .reload, .setLocale language ]) ∧
    (∀ language,
      componentDidMount convertToCockpitLang language
        (some (convertToCockpitLang language)) = [.setLocale language]) := by
  have hid := (searchLocales_eq_some item localeItem languages hsel).1
  refine ⟨hid, ?_, ?_, ?_⟩
  · intro events
    obtain ⟨later, h⟩ := run_trace_extends events
      (handleOnSelect convertToCockpitLang languages item)
    refine ⟨later, ?_⟩
    rw [h, handleOnSelect_found convertToCockpitLang languages item localeItem hsel, hid]
  · intro language langCookie h
    simp [componentDidMount, h]
  · intro language
    simp [componentDidMount]

/-- Witness of C13: selecting "en_GB.UTF-8" in the small catalog writes the
marker "en_GB" first, and mounting with the marker "en_US" and the language
"en_GB.UTF-8" writes the marker before the reload. -/
theorem C13_marker_written_first_witness :
    searchLocales (utf16 "en_GB.UTF-8") sampleLanguages =
      some { localeId := utf16 "en_GB.UTF-8",
             nativeName := utf16 "English (United Kingdom)" } ∧
    some (utf16 "en_US") ≠ some (sampleCockpitLang (utf16 "en_GB.UTF-8")) ∧
    componentDidMount sampleCockpitLang (utf16 "en_GB.UTF-8") (some (utf16 "en_US")) =
      [ .setLangCookie (sampleCockpitLang (utf16 "en_GB.UTF-8")), .reload,
        .setLocale (utf16 "en_GB.UTF-8") ] ∧
    (handleOnSelect sampleCockpitLang sampleLanguages (utf16 "en_GB.UTF-8")).trace.head? =
      some (.setLangCookie (utf16 "en_GB")) :=
  ⟨by decide, by decide,
    (C13_marker_written_first sampleCockpitLang sampleLanguages (utf16 "en_GB.UTF-8")
      { localeId := utf16 "en_GB.UTF-8", nativeName := utf16 "English (United Kingdom)" }
      (by decide)).2.2.1 (utf16 "en_GB.UTF-8") (some (utf16 "en_US")) (by decide),
    by decide⟩

end AnacondaWebui
